import Mathlib

/-!
Verification of the reaction (like/dislike) subsystem of a social
video-sharing backend.

The embedding models, from the source:
  * the `Like` model (`models/Like.js`): rows `{user, video?, comment?, type}`
    with unique `(user, video)` and `(user, comment)` indexes;
  * the `Video` and `Comment` models (`models/Video.js`, `models/Comment.js`)
    restricted to the fields the reaction subsystem touches
    (`likes`, `dislikes`, ownership, and for comments `isReply`,
    `parentComment`, `replies`);
  * the route handlers: `POST /videos/:id/like`, `POST /videos/:id/dislike`,
    `GET /videos/:id/like-status`, `DELETE /videos/:id`,
    `POST /videos/:id/comments` (`routes/videos.js`), and
    `POST /comments/:id/like`, `POST /comments/:id/dislike`,
    `POST /comments/:id/replies`, `DELETE /comments/:id`
    (the comments router).

The datastore is modelled as lists of documents; `ObjectId`s are natural
numbers allocated from a monotone counter (`nextId`), capturing that Mongo
ObjectIds are never reused.  Counters are integers, because the JavaScript
arithmetic (`video.likes -= 1`) is unguarded and can in principle store a
negative number.  Mongoose calls become list operations: `findById` /
`findOne` are `List.find?`, `deleteOne` / `deleteMany` are `List.filter`,
`save` of a fetched document writes it back by id, and `new Like().save()`
is an insert that fails (duplicate key) when the unique index is violated.

Each react handler is written in an "At" form taking the database snapshot
used for the reads and the database the writes apply to separately; the
sequential handler is the diagonal.  The off-diagonal form expresses the
interleaving where another request commits between the handler's `findOne`
and its `save`, which is the situation in which the unique index fires.
-/

namespace Tube

/-- The `type` field of the Like model: `enum: ['like', 'dislike']`. -/
inductive LikeType where
  | like : LikeType
  | dislike : LikeType
deriving DecidableEq

/-- A document of the `Like` collection (`models/Like.js`): `user` is
required, `video` and `comment` are both optional references, `type` is the
reaction kind. -/
structure Like where
  id : Nat
  user : Nat
  video : Option Nat
  comment : Option Nat
  type : LikeType
deriving DecidableEq

/-- A document of the `Video` collection (`models/Video.js`), restricted to
the fields the reaction subsystem reads or writes. -/
structure Video where
  id : Nat
  user : Nat
  likes : Int
  dislikes : Int
deriving DecidableEq

/-- A document of the `Comment` collection (`models/Comment.js`), restricted
to the fields the reaction and deletion flows touch. -/
structure Comment where
  id : Nat
  user : Nat
  video : Nat
  likes : Int
  dislikes : Int
  replies : List Nat
  isReply : Bool
  parentComment : Option Nat
deriving DecidableEq

/-- The datastore: the three collections plus the ObjectId allocator. -/
structure DB where
  videos : List Video
  comments : List Comment
  likes : List Like
  nextId : Nat
deriving DecidableEq

/-- HTTP-shaped responses of the handlers: `ok` is a 200 with a `message`
field, `created` a 201, `status` the `{liked, disliked}` body of
`GET /videos/:id/like-status`, `notFound` a 404, `unauthorized` a 401 and
`serverError` the catch-all 500. -/
inductive Resp where
  | ok (message : String) : Resp
  | created : Resp
  | status (liked disliked : Bool) : Resp
  | notFound (message : String) : Resp
  | unauthorized (message : String) : Resp
  | serverError : Resp
deriving DecidableEq

/-- `Video.findById(id)`. -/
def Video.findById (db : DB) (vid : Nat) : Option Video :=
  db.videos.find? (fun v => v.id = vid)

/-- `Comment.findById(id)`. -/
def Comment.findById (db : DB) (cid : Nat) : Option Comment :=
  db.comments.find? (fun c => c.id = cid)

/-- `Like.findOne({user, video})`. -/
def Like.findOneVideo (db : DB) (uid vid : Nat) : Option Like :=
  db.likes.find? (fun l => l.user = uid ∧ l.video = some vid)

/-- `Like.findOne({user, comment})`. -/
def Like.findOneComment (db : DB) (uid cid : Nat) : Option Like :=
  db.likes.find? (fun l => l.user = uid ∧ l.comment = some cid)

/-- `Like.deleteOne({_id})`. -/
def Like.deleteOne (db : DB) (lid : Nat) : DB :=
  { db with likes := db.likes.filter (fun l => ¬ l.id = lid) }

/-- `existingLike.save()` after its `type` was mutated: writes the document
back over the row with the same `_id`. -/
def Like.save (db : DB) (l : Like) : DB :=
  { db with likes := db.likes.map (fun m => if m.id = l.id then l else m) }

/-- `new Like({user, video?, comment?, type}).save()`.  The save allocates a
fresh ObjectId and fails with a duplicate-key error (modelled as
`Except.error`) when one of the unique sparse compound indexes
`{user: 1, video: 1}` / `{user: 1, comment: 1}` of `models/Like.js` is
violated.  A sparse compound index keys every document that has at least one
of its fields — `user` is always present, so every Like row sits in both
indexes, with a missing reference keyed `null`.  The insert therefore
collides exactly when an existing row of the same user has the same `video`
key (a missing `video` colliding with a missing `video`) or the same
`comment` key; `Option.eq` with `none = none` models the null key. -/
def Like.create (db : DB) (user : Nat) (video comment : Option Nat)
    (t : LikeType) : Except Unit DB :=
  if db.likes.any (fun m => m.user = user ∧ m.video = video) ∨
     db.likes.any (fun m => m.user = user ∧ m.comment = comment) then
    .error ()
  else
    .ok { db with
          likes := db.likes ++ [⟨db.nextId, user, video, comment, t⟩],
          nextId := db.nextId + 1 }

/-- `Like.deleteMany({video})`. -/
def Like.deleteManyVideo (db : DB) (vid : Nat) : DB :=
  { db with likes := db.likes.filter (fun l => ¬ l.video = some vid) }

/-- `Like.deleteMany({comment})`. -/
def Like.deleteManyComment (db : DB) (cid : Nat) : DB :=
  { db with likes := db.likes.filter (fun l => ¬ l.comment = some cid) }

/-- `video.save()` for a fetched (and possibly mutated) video document:
writes it back over the row with the same `_id`. -/
def Video.save (db : DB) (v : Video) : DB :=
  { db with videos := db.videos.map (fun w => if w.id = v.id then v else w) }

/-- `comment.save()` for a fetched comment document. -/
def Comment.save (db : DB) (c : Comment) : DB :=
  { db with comments := db.comments.map (fun d => if d.id = c.id then c else d) }

/-- `POST /api/videos/:id/like` (routes/videos.js).  `dbR` is the snapshot
the handler's reads (`findById`, `findOne`) observe; `dbW` is the database
its writes apply to.  The sequential handler `likeVideo` is the diagonal.
The source checks `existingLike.type === 'like'` and then
`existingLike.type === 'dislike'`; since `type` is a two-valued enum the
second test is the `else` branch here.  A failing `save()` lands in the
handler's catch block, which answers 500. -/
def likeVideoAt (uid vid : Nat) (dbR dbW : DB) : Resp × DB :=
  match Video.findById dbR vid with
  | none => (.notFound "Video not found", dbW)
  | some video =>
    match Like.findOneVideo dbR uid vid with
    | some existingLike =>
      if existingLike.type = .like then
        -- If user already liked the video, remove like
        let db1 := Like.deleteOne dbW existingLike.id
        let db2 := Video.save db1 { video with likes := video.likes - 1 }
        (.ok "Like removed", db2)
      else
        -- If user disliked the video, change to like
        let db1 := Like.save dbW { existingLike with type := .like }
        let db2 := Video.save db1
          { video with likes := video.likes + 1, dislikes := video.dislikes - 1 }
        (.ok "Changed dislike to like", db2)
    | none =>
      -- Create new like
      match Like.create dbW uid (some vid) none .like with
      | .error _ => (.serverError, dbW)
      | .ok db1 =>
        let db2 := Video.save db1 { video with likes := video.likes + 1 }
        (.ok "Video liked", db2)

/-- `POST /api/videos/:id/like`, sequential execution. -/
def likeVideo (uid vid : Nat) (db : DB) : Resp × DB :=
  likeVideoAt uid vid db db

/-- `POST /api/videos/:id/dislike` (routes/videos.js), two-snapshot form. -/
def dislikeVideoAt (uid vid : Nat) (dbR dbW : DB) : Resp × DB :=
  match Video.findById dbR vid with
  | none => (.notFound "Video not found", dbW)
  | some video =>
    match Like.findOneVideo dbR uid vid with
    | some existingLike =>
      if existingLike.type = .dislike then
        -- If user already disliked the video, remove dislike
        let db1 := Like.deleteOne dbW existingLike.id
        let db2 := Video.save db1 { video with dislikes := video.dislikes - 1 }
        (.ok "Dislike removed", db2)
      else
        -- If user liked the video, change to dislike
        let db1 := Like.save dbW { existingLike with type := .dislike }
        let db2 := Video.save db1
          { video with likes := video.likes - 1, dislikes := video.dislikes + 1 }
        (.ok "Changed like to dislike", db2)
    | none =>
      -- Create new dislike
      match Like.create dbW uid (some vid) none .dislike with
      | .error _ => (.serverError, dbW)
      | .ok db1 =>
        let db2 := Video.save db1 { video with dislikes := video.dislikes + 1 }
        (.ok "Video disliked", db2)

/-- `POST /api/videos/:id/dislike`, sequential execution. -/
def dislikeVideo (uid vid : Nat) (db : DB) : Resp × DB :=
  dislikeVideoAt uid vid db db

/-- `POST /api/comments/:id/like` (comments router), two-snapshot form. -/
def likeCommentAt (uid cid : Nat) (dbR dbW : DB) : Resp × DB :=
  match Comment.findById dbR cid with
  | none => (.notFound "Comment not found", dbW)
  | some comment =>
    match Like.findOneComment dbR uid cid with
    | some existingLike =>
      if existingLike.type = .like then
        -- If user already liked the comment, remove like
        let db1 := Like.deleteOne dbW existingLike.id
        let db2 := Comment.save db1 { comment with likes := comment.likes - 1 }
        (.ok "Like removed", db2)
      else
        -- If user disliked the comment, change to like
        let db1 := Like.save dbW { existingLike with type := .like }
        let db2 := Comment.save db1
          { comment with likes := comment.likes + 1, dislikes := comment.dislikes - 1 }
        (.ok "Changed dislike to like", db2)
    | none =>
      -- Create new like
      match Like.create dbW uid none (some cid) .like with
      | .error _ => (.serverError, dbW)
      | .ok db1 =>
        let db2 := Comment.save db1 { comment with likes := comment.likes + 1 }
        (.ok "Comment liked", db2)

/-- `POST /api/comments/:id/like`, sequential execution. -/
def likeComment (uid cid : Nat) (db : DB) : Resp × DB :=
  likeCommentAt uid cid db db

/-- `POST /api/comments/:id/dislike` (comments router), two-snapshot form. -/
def dislikeCommentAt (uid cid : Nat) (dbR dbW : DB) : Resp × DB :=
  match Comment.findById dbR cid with
  | none => (.notFound "Comment not found", dbW)
  | some comment =>
    match Like.findOneComment dbR uid cid with
    | some existingLike =>
      if existingLike.type = .dislike then
        -- If user already disliked the comment, remove dislike
        let db1 := Like.deleteOne dbW existingLike.id
        let db2 := Comment.save db1 { comment with dislikes := comment.dislikes - 1 }
        (.ok "Dislike removed", db2)
      else
        -- If user liked the comment, change to dislike
        let db1 := Like.save dbW { existingLike with type := .dislike }
        let db2 := Comment.save db1
          { comment with likes := comment.likes - 1, dislikes := comment.dislikes + 1 }
        (.ok "Changed like to dislike", db2)
    | none =>
      -- Create new dislike
      match Like.create dbW uid none (some cid) .dislike with
      | .error _ => (.serverError, dbW)
      | .ok db1 =>
        let db2 := Comment.save db1 { comment with dislikes := comment.dislikes + 1 }
        (.ok "Comment disliked", db2)

/-- `POST /api/comments/:id/dislike`, sequential execution. -/
def dislikeComment (uid cid : Nat) (db : DB) : Resp × DB :=
  dislikeCommentAt uid cid db db

/-- `GET /api/videos/:id/like-status` (routes/videos.js): reads only the
actor's Like row for the video — there is no `Video.findById` and hence no
404 branch. -/
def likeStatus (uid vid : Nat) (db : DB) : Resp :=
  match Like.findOneVideo db uid vid with
  | none => .status false false
  | some l => .status (l.type = .like) (l.type = .dislike)

/-- `DELETE /api/videos/:id` (routes/videos.js): ownership check, then
`Comment.deleteMany({video})`, `Like.deleteMany({video})`,
`Video.deleteOne({_id})`. -/
def deleteVideo (uid vid : Nat) (db : DB) : Resp × DB :=
  match Video.findById db vid with
  | none => (.notFound "Video not found", db)
  | some video =>
    if ¬ video.user = uid then
      (.unauthorized "Not authorized to delete this video", db)
    else
      let db1 := { db with comments := db.comments.filter (fun c => ¬ c.video = vid) }
      let db2 := Like.deleteManyVideo db1 vid
      let db3 := { db2 with videos := db2.videos.filter (fun v => ¬ v.id = vid) }
      (.ok "Video removed", db3)

/-- `DELETE /api/comments/:id` (comments router): ownership check; for a
parent comment `Comment.deleteMany({parentComment})`, for a reply a `$pull`
of its id from the parent's `replies` array; then
`Like.deleteMany({comment})` and `Comment.deleteOne({_id})`. -/
def deleteComment (uid cid : Nat) (db : DB) : Resp × DB :=
  match Comment.findById db cid with
  | none => (.notFound "Comment not found", db)
  | some comment =>
    if ¬ comment.user = uid then
      (.unauthorized "Not authorized to delete this comment", db)
    else
      let db1 :=
        if ¬ comment.isReply then
          { db with comments := db.comments.filter (fun c => ¬ c.parentComment = some cid) }
        else
          { db with comments := db.comments.map (fun c =>
              if some c.id = comment.parentComment then
                { c with replies := c.replies.filter (fun r => ¬ r = cid) }
              else c) }
      let db2 := Like.deleteManyComment db1 cid
      let db3 := { db2 with comments := db2.comments.filter (fun c => ¬ c.id = cid) }
      (.ok "Comment removed", db3)

/-- `POST /api/videos` (routes/videos.js), restricted to the reaction-visible
effect: a new video document with zero counters and a fresh id. -/
def uploadVideo (uid : Nat) (db : DB) : Resp × DB :=
  (.created,
   { db with
     videos := db.videos ++ [⟨db.nextId, uid, 0, 0⟩],
     nextId := db.nextId + 1 })

/-- `POST /api/videos/:id/comments` (routes/videos.js): a new top-level
comment on an existing video, zero counters, fresh id. -/
def addComment (uid vid : Nat) (db : DB) : Resp × DB :=
  match Video.findById db vid with
  | none => (.notFound "Video not found", db)
  | some video =>
    (.created,
     { db with
       comments := db.comments ++ [⟨db.nextId, uid, video.id, 0, 0, [], false, none⟩],
       nextId := db.nextId + 1 })

/-- `POST /api/comments/:id/replies` (comments router): a new reply comment
on an existing parent, and the reply's id pushed onto the parent's
`replies` array. -/
def addReply (uid cid : Nat) (db : DB) : Resp × DB :=
  match Comment.findById db cid with
  | none => (.notFound "Comment not found", db)
  | some parentComment =>
    let db1 :=
      { db with
        comments := db.comments ++
          [⟨db.nextId, uid, parentComment.video, 0, 0, [], true, some parentComment.id⟩],
        nextId := db.nextId + 1 }
    let db2 := Comment.save db1
      { parentComment with replies := parentComment.replies ++ [db.nextId] }
    (.created, db2)

/-- The operations of the subsystem, for trace-based invariants. -/
inductive Op where
  | uploadVid (uid : Nat) : Op
  | addCom (uid vid : Nat) : Op
  | addRep (uid cid : Nat) : Op
  | likeVid (uid vid : Nat) : Op
  | dislikeVid (uid vid : Nat) : Op
  | likeCom (uid cid : Nat) : Op
  | dislikeCom (uid cid : Nat) : Op
  | deleteVid (uid vid : Nat) : Op
  | deleteCom (uid cid : Nat) : Op
deriving DecidableEq

/-- One request against the datastore. -/
def step (op : Op) (db : DB) : Resp × DB :=
  match op with
  | .uploadVid uid => uploadVideo uid db
  | .addCom uid vid => addComment uid vid db
  | .addRep uid cid => addReply uid cid db
  | .likeVid uid vid => likeVideo uid vid db
  | .dislikeVid uid vid => dislikeVideo uid vid db
  | .likeCom uid cid => likeComment uid cid db
  | .dislikeCom uid cid => dislikeComment uid cid db
  | .deleteVid uid vid => deleteVideo uid vid db
  | .deleteCom uid cid => deleteComment uid cid db

/-- A sequence of requests, executed sequentially. -/
def run (ops : List Op) (db : DB) : DB :=
  ops.foldl (fun d op => (step op d).2) db

/-- The outcome of one row of the six-row transition table. -/
structure Transition where
  newState : Option LikeType
  likeDelta : Int
  dislikeDelta : Int
deriving DecidableEq

/-- Modelled from the spec: the six-row state machine of §4.1 over
(existing reaction kind or none, requested kind), giving the new reaction
state and the counter deltas.  This is the spec-side definition against
which the handlers are compared. -/
def specMachine : Option LikeType → LikeType → Transition
  | none, .like => ⟨some .like, 1, 0⟩
  | none, .dislike => ⟨some .dislike, 0, 1⟩
  | some .like, .like => ⟨none, -1, 0⟩
  | some .dislike, .dislike => ⟨none, 0, -1⟩
  | some .like, .dislike => ⟨some .dislike, -1, 1⟩
  | some .dislike, .like => ⟨some .like, 1, -1⟩

/-- The video call site for a requested kind: `POST /videos/:id/like` for
`like`, `POST /videos/:id/dislike` for `dislike`. -/
def reactVideo : LikeType → Nat → Nat → DB → Resp × DB
  | .like => likeVideo
  | .dislike => dislikeVideo

/-- The comment call site for a requested kind. -/
def reactComment : LikeType → Nat → Nat → DB → Resp × DB
  | .like => likeComment
  | .dislike => dislikeComment

/-- The actor's current reaction kind on a video (`none` if no row). -/
def reactionOnVideo (db : DB) (uid vid : Nat) : Option LikeType :=
  (Like.findOneVideo db uid vid).map Like.type

/-- The actor's current reaction kind on a comment. -/
def reactionOnComment (db : DB) (uid cid : Nat) : Option LikeType :=
  (Like.findOneComment db uid cid).map Like.type

/-- Count of Like rows of a given kind pointing at a video — the
authoritative value the denormalized `likes`/`dislikes` fields must track. -/
def Like.countVideo (ls : List Like) (vid : Nat) (t : LikeType) : Nat :=
  ls.countP (fun l => l.video = some vid ∧ l.type = t)

/-- Count of Like rows of a given kind pointing at a comment. -/
def Like.countComment (ls : List Like) (cid : Nat) (t : LikeType) : Nat :=
  ls.countP (fun l => l.comment = some cid ∧ l.type = t)

/-- Bound on an optional ObjectId reference: holds vacuously for `none`. -/
def oLt : Option Nat → Nat → Prop
  | none, _ => True
  | some x, n => x < n

instance : (o : Option Nat) → (n : Nat) → Decidable (oLt o n)
  | none, _ => isTrue trivial
  | some x, n => inferInstanceAs (Decidable (x < n))

/-- Membership of an optional ObjectId reference in a list of ids: holds
vacuously for `none`. -/
def oIn : Option Nat → List Nat → Prop
  | none, _ => True
  | some x, ids => x ∈ ids

instance : (o : Option Nat) → (ids : List Nat) → Decidable (oIn o ids)
  | none, _ => isTrue trivial
  | some x, ids => inferInstanceAs (Decidable (x ∈ ids))

/-- Every Like row references exactly one target: a video or a comment,
never both and never neither. -/
def OneTarget (db : DB) : Prop :=
  ∀ l ∈ db.likes, l.video.isSome = !l.comment.isSome

/-- At most one Like row per (actor, target): two rows of the same user
agreeing on a present video reference, or on a present comment reference,
are the same row. -/
def UniqueReactions (db : DB) : Prop :=
  ∀ l ∈ db.likes, ∀ m ∈ db.likes, l.user = m.user →
    ((l.video = m.video ∧ l.video.isSome = true) ∨
     (l.comment = m.comment ∧ l.comment.isSome = true)) → l = m

/-- The denormalized counters of every stored target agree with the count of
Like rows of each kind pointing at it. -/
def CounterConsistent (db : DB) : Prop :=
  (∀ v ∈ db.videos,
      v.likes = (Like.countVideo db.likes v.id .like : Int) ∧
      v.dislikes = (Like.countVideo db.likes v.id .dislike : Int)) ∧
  (∀ c ∈ db.comments,
      c.likes = (Like.countComment db.likes c.id .like : Int) ∧
      c.dislikes = (Like.countComment db.likes c.id .dislike : Int))

/-- No target ever carries a negative counter. -/
def NonNegCounters (db : DB) : Prop :=
  (∀ v ∈ db.videos, 0 ≤ v.likes ∧ 0 ≤ v.dislikes) ∧
  (∀ c ∈ db.comments, 0 ≤ c.likes ∧ 0 ≤ c.dislikes)

/-- Every present video reference of a Like row points at a stored video.
(Comment references may dangle: that is exactly the orphan situation the
cascade claims are about, so it is not part of well-formedness.) -/
def VideoRefs (db : DB) : Prop :=
  ∀ l ∈ db.likes, oIn l.video (db.videos.map Video.id)

/-- Every ObjectId stored anywhere is below the allocator, so freshly
allocated ids are new (Mongo ObjectIds are never reused). -/
def Fresh (db : DB) : Prop :=
  (∀ v ∈ db.videos, v.id < db.nextId) ∧
  (∀ c ∈ db.comments, c.id < db.nextId) ∧
  (∀ l ∈ db.likes, l.id < db.nextId ∧ oLt l.video db.nextId ∧ oLt l.comment db.nextId)

instance (db : DB) : Decidable (OneTarget db) := by
  unfold OneTarget
  infer_instance

instance (db : DB) : Decidable (UniqueReactions db) := by
  unfold UniqueReactions
  infer_instance

instance (db : DB) : Decidable (CounterConsistent db) := by
  unfold CounterConsistent
  infer_instance

instance (db : DB) : Decidable (NonNegCounters db) := by
  unfold NonNegCounters
  infer_instance

instance (db : DB) : Decidable (VideoRefs db) := by
  unfold VideoRefs
  infer_instance

instance (db : DB) : Decidable (Fresh db) := by
  unfold Fresh
  infer_instance

/-- Well-formedness of a datastore state: distinct ids per collection, a
fresh allocator, and the reaction-subsystem invariants. -/
structure WF (db : DB) : Prop where
  vNodup : (db.videos.map Video.id).Nodup
  cNodup : (db.comments.map Comment.id).Nodup
  lNodup : (db.likes.map Like.id).Nodup
  fresh : Fresh db
  one : OneTarget db
  uniq : UniqueReactions db
  counts : CounterConsistent db
  refs : VideoRefs db

section ListKit

variable {α : Type}

/-- Filtering with a predicate that keeps everything the counted predicate
accepts does not change the count. -/
theorem countP_filter_of_imp (p q : α → Bool) (xs : List α)
    (h : ∀ x ∈ xs, p x = true → q x = true) :
    (xs.filter q).countP p = xs.countP p := by
  rw [List.countP_filter]
  refine List.countP_congr fun x hx => ?_
  simp only [Bool.and_eq_true]
  exact ⟨fun hpq => hpq.1, fun hp => ⟨hp, h x hx hp⟩⟩

/-- Removing the unique element with a given key from a keyed list with
distinct keys removes exactly its contribution to a count. -/
theorem countP_remove_one (key : α → Nat) (p r : α → Bool) {xs : List α} {a : α}
    (hnd : (xs.map key).Nodup) (ha : a ∈ xs)
    (hr : ∀ x, r x = true ↔ ¬ key x = key a) :
    (xs.filter r).countP p + (if p a = true then 1 else 0) = xs.countP p := by
  induction xs with
  | nil => cases ha
  | cons x xs ih =>
    rw [List.map_cons, List.nodup_cons] at hnd
    rcases List.mem_cons.mp ha with rfl | ha'
    · have hrx : ¬ r a = true := by simp [hr]
      have hall : xs.filter r = xs := List.filter_eq_self.mpr fun y hy =>
        (hr y).mpr fun hk => hnd.1 (hk ▸ List.mem_map.mpr ⟨y, hy, rfl⟩)
      rw [List.filter_cons_of_neg hrx, hall, List.countP_cons]
    · have hkx : ¬ key x = key a :=
        fun hk => hnd.1 (hk ▸ List.mem_map.mpr ⟨a, ha', rfl⟩)
      rw [List.filter_cons_of_pos ((hr x).mpr hkx), List.countP_cons,
        List.countP_cons]
      have := ih hnd.2 ha'
      omega

/-- Updating the unique element with a given key in a keyed list with
distinct keys swaps its contribution to a count for the new element's. -/
theorem countP_update_one (key : α → Nat) (p : α → Bool) (b : α) (f : α → α)
    {xs : List α} {a : α} (hnd : (xs.map key).Nodup) (ha : a ∈ xs)
    (hfa : ∀ x, key x = key a → f x = b) (hfn : ∀ x, ¬ key x = key a → f x = x) :
    (xs.map f).countP p + (if p a = true then 1 else 0)
      = xs.countP p + (if p b = true then 1 else 0) := by
  induction xs with
  | nil => cases ha
  | cons x xs ih =>
    rw [List.map_cons, List.nodup_cons] at hnd
    rcases List.mem_cons.mp ha with rfl | ha'
    · have hxs : xs.map f = xs := by
        have h1 : xs.map f = xs.map id := List.map_congr_left fun y hy =>
          hfn y fun hk => hnd.1 (hk ▸ List.mem_map.mpr ⟨y, hy, rfl⟩)
        simpa using h1
      rw [List.map_cons, hfa a rfl, hxs, List.countP_cons, List.countP_cons]
      omega
    · have hkx : ¬ key x = key a :=
        fun hk => hnd.1 (hk ▸ List.mem_map.mpr ⟨a, ha', rfl⟩)
      rw [List.map_cons, hfn x hkx, List.countP_cons, List.countP_cons]
      have := ih hnd.2 ha'
      omega

/-- `find?` only depends on the predicate's values on the list. -/
theorem find?_congr_mem (p q : α → Bool) (xs : List α)
    (h : ∀ x ∈ xs, p x = q x) : xs.find? p = xs.find? q := by
  induction xs with
  | nil => rfl
  | cons x xs ih =>
    have hx := h x (List.mem_cons_self x xs)
    cases hq : q x with
    | true => simp [List.find?_cons, hx, hq]
    | false =>
      simp only [List.find?_cons, hx, hq]
      exact ih fun y hy => h y (List.mem_cons_of_mem x hy)

/-- A mapped list keeps its keys when the function preserves them. -/
theorem map_key_of_preserve (key : α → Nat) (f : α → α)
    (hf : ∀ x, key (f x) = key x) (xs : List α) :
    (xs.map f).map key = xs.map key := by
  rw [List.map_map]
  exact List.map_congr_left fun x _ => hf x

/-- Two members of a keyed list with distinct keys and equal keys coincide. -/
theorem eq_of_key_of_nodup (key : α → Nat) {xs : List α} {a b : α}
    (hnd : (xs.map key).Nodup) (ha : a ∈ xs) (hb : b ∈ xs)
    (hk : key a = key b) : a = b :=
  List.inj_on_of_nodup_map hnd ha hb hk

end ListKit

section CountKit

/-! Count lemmas for the four ways the handlers mutate the Like list:
removing one row by id, rewriting one row by id, appending a fresh row, and
bulk-filtering. -/

theorem countVideo_remove {ls : List Like} {ex : Like}
    (hlN : (ls.map Like.id).Nodup) (hex : ex ∈ ls) (x : Nat) (t : LikeType) :
    Like.countVideo (ls.filter (fun l => ¬ l.id = ex.id)) x t
      + (if ex.video = some x ∧ ex.type = t then 1 else 0)
      = Like.countVideo ls x t := by
  have h := countP_remove_one Like.id (fun l => l.video = some x ∧ l.type = t)
    (fun l => ¬ l.id = ex.id) hlN hex (fun l => by rw [decide_eq_true_eq])
  simpa only [decide_eq_true_eq] using h

theorem countComment_remove {ls : List Like} {ex : Like}
    (hlN : (ls.map Like.id).Nodup) (hex : ex ∈ ls) (x : Nat) (t : LikeType) :
    Like.countComment (ls.filter (fun l => ¬ l.id = ex.id)) x t
      + (if ex.comment = some x ∧ ex.type = t then 1 else 0)
      = Like.countComment ls x t := by
  have h := countP_remove_one Like.id (fun l => l.comment = some x ∧ l.type = t)
    (fun l => ¬ l.id = ex.id) hlN hex (fun l => by rw [decide_eq_true_eq])
  simpa only [decide_eq_true_eq] using h

theorem countVideo_update {ls : List Like} {ex b : Like}
    (hlN : (ls.map Like.id).Nodup) (hex : ex ∈ ls) (x : Nat) (t : LikeType) :
    Like.countVideo (ls.map (fun m => if m.id = ex.id then b else m)) x t
      + (if ex.video = some x ∧ ex.type = t then 1 else 0)
      = Like.countVideo ls x t + (if b.video = some x ∧ b.type = t then 1 else 0) := by
  have h := countP_update_one Like.id (fun l => l.video = some x ∧ l.type = t) b
    (fun m => if m.id = ex.id then b else m) hlN hex
    (fun m hm => if_pos hm) (fun m hm => if_neg hm)
  simpa only [decide_eq_true_eq] using h

theorem countComment_update {ls : List Like} {ex b : Like}
    (hlN : (ls.map Like.id).Nodup) (hex : ex ∈ ls) (x : Nat) (t : LikeType) :
    Like.countComment (ls.map (fun m => if m.id = ex.id then b else m)) x t
      + (if ex.comment = some x ∧ ex.type = t then 1 else 0)
      = Like.countComment ls x t + (if b.comment = some x ∧ b.type = t then 1 else 0) := by
  have h := countP_update_one Like.id (fun l => l.comment = some x ∧ l.type = t) b
    (fun m => if m.id = ex.id then b else m) hlN hex
    (fun m hm => if_pos hm) (fun m hm => if_neg hm)
  simpa only [decide_eq_true_eq] using h

theorem countVideo_append (ls : List Like) (nl : Like) (x : Nat) (t : LikeType) :
    Like.countVideo (ls ++ [nl]) x t
      = Like.countVideo ls x t + (if nl.video = some x ∧ nl.type = t then 1 else 0) := by
  unfold Like.countVideo
  rw [List.countP_append, List.countP_cons]
  simp only [List.countP_nil, Nat.zero_add, decide_eq_true_eq]

theorem countComment_append (ls : List Like) (nl : Like) (x : Nat) (t : LikeType) :
    Like.countComment (ls ++ [nl]) x t
      = Like.countComment ls x t + (if nl.comment = some x ∧ nl.type = t then 1 else 0) := by
  unfold Like.countComment
  rw [List.countP_append, List.countP_cons]
  simp only [List.countP_nil, Nat.zero_add, decide_eq_true_eq]

theorem countVideo_filter_keep {ls : List Like} {r : Like → Bool} {x : Nat} {t : LikeType}
    (h : ∀ l ∈ ls, l.video = some x → r l = true) :
    Like.countVideo (ls.filter r) x t = Like.countVideo ls x t :=
  countP_filter_of_imp _ _ _ fun l hl hp =>
    h l hl ((decide_eq_true_eq.mp hp).1)

theorem countComment_filter_keep {ls : List Like} {r : Like → Bool} {x : Nat} {t : LikeType}
    (h : ∀ l ∈ ls, l.comment = some x → r l = true) :
    Like.countComment (ls.filter r) x t = Like.countComment ls x t :=
  countP_filter_of_imp _ _ _ fun l hl hp =>
    h l hl ((decide_eq_true_eq.mp hp).1)

theorem countVideo_zero {ls : List Like} {x : Nat}
    (h : ∀ l ∈ ls, ¬ l.video = some x) (t : LikeType) :
    Like.countVideo ls x t = 0 :=
  List.countP_eq_zero.mpr fun l hl => by
    rw [decide_eq_true_eq]
    exact fun hp => h l hl hp.1

theorem countComment_zero {ls : List Like} {x : Nat}
    (h : ∀ l ∈ ls, ¬ l.comment = some x) (t : LikeType) :
    Like.countComment ls x t = 0 :=
  List.countP_eq_zero.mpr fun l hl => by
    rw [decide_eq_true_eq]
    exact fun hp => h l hl hp.1

end CountKit

section Chars

/-! Characterization of each handler branch: given the values of the reads,
the handler application rewrites to an explicit response and state. -/

theorem likeVideo_notFound {db : DB} {uid vid : Nat}
    (hfv : Video.findById db vid = none) :
    likeVideo uid vid db = (.notFound "Video not found", db) := by
  simp only [likeVideo, likeVideoAt, hfv]

theorem likeVideo_toggle {db : DB} {uid vid : Nat} {video : Video} {ex : Like}
    (hfv : Video.findById db vid = some video)
    (hfl : Like.findOneVideo db uid vid = some ex)
    (ht : ex.type = .like) :
    likeVideo uid vid db =
      (.ok "Like removed",
       ⟨db.videos.map (fun w =>
          if w.id = video.id then { video with likes := video.likes - 1 } else w),
        db.comments,
        db.likes.filter (fun l => ¬ l.id = ex.id),
        db.nextId⟩) := by
  simp only [likeVideo, likeVideoAt, hfv, hfl, ht, Like.deleteOne, Video.save, reduceIte]

theorem likeVideo_flip {db : DB} {uid vid : Nat} {video : Video} {ex : Like}
    (hfv : Video.findById db vid = some video)
    (hfl : Like.findOneVideo db uid vid = some ex)
    (ht : ex.type = .dislike) :
    likeVideo uid vid db =
      (.ok "Changed dislike to like",
       ⟨db.videos.map (fun w =>
          if w.id = video.id then
            { video with likes := video.likes + 1, dislikes := video.dislikes - 1 }
          else w),
        db.comments,
        db.likes.map (fun m => if m.id = ex.id then { ex with type := .like } else m),
        db.nextId⟩) := by
  simp only [likeVideo, likeVideoAt, hfv, hfl, ht, Like.save, Video.save, reduceCtorEq,
    reduceIte]

theorem likeVideo_createOk {db : DB} {uid vid : Nat} {video : Video}
    (hfv : Video.findById db vid = some video)
    (hfl : Like.findOneVideo db uid vid = none)
    (hnb : ∀ m ∈ db.likes, ¬ (m.user = uid ∧ m.comment = (none : Option Nat))) :
    likeVideo uid vid db =
      (.ok "Video liked",
       ⟨db.videos.map (fun w =>
          if w.id = video.id then { video with likes := video.likes + 1 } else w),
        db.comments,
        db.likes ++ [⟨db.nextId, uid, some vid, none, .like⟩],
        db.nextId + 1⟩) := by
  have hnc : ¬ ((db.likes.any (fun m => m.user = uid ∧ m.video = some vid) : Bool) ∨
      (db.likes.any (fun m => m.user = uid ∧ m.comment = (none : Option Nat)) : Bool)) := by
    rintro (h | h) <;> rw [List.any_eq_true] at h <;> obtain ⟨m, hm, hp⟩ := h <;>
      rw [decide_eq_true_eq] at hp
    · exact (List.find?_eq_none.mp hfl m hm) (by rw [decide_eq_true_eq]; exact hp)
    · exact hnb m hm hp
  simp only [likeVideo, likeVideoAt, hfv, hfl, Like.create, if_neg hnc, Video.save]

theorem likeVideo_createConflict {db : DB} {uid vid : Nat} {video : Video}
    (hfv : Video.findById db vid = some video)
    (hfl : Like.findOneVideo db uid vid = none)
    (hb : db.likes.any (fun m => m.user = uid ∧ m.comment = (none : Option Nat)) = true) :
    likeVideo uid vid db = (.serverError, db) := by
  have hc : (db.likes.any (fun m => m.user = uid ∧ m.video = some vid) : Bool) ∨
      (db.likes.any (fun m => m.user = uid ∧ m.comment = (none : Option Nat)) : Bool) :=
    Or.inr hb
  simp only [likeVideo, likeVideoAt, hfv, hfl, Like.create, if_pos hc]

theorem dislikeVideo_notFound {db : DB} {uid vid : Nat}
    (hfv : Video.findById db vid = none) :
    dislikeVideo uid vid db = (.notFound "Video not found", db) := by
  simp only [dislikeVideo, dislikeVideoAt, hfv]

theorem dislikeVideo_toggle {db : DB} {uid vid : Nat} {video : Video} {ex : Like}
    (hfv : Video.findById db vid = some video)
    (hfl : Like.findOneVideo db uid vid = some ex)
    (ht : ex.type = .dislike) :
    dislikeVideo uid vid db =
      (.ok "Dislike removed",
       ⟨db.videos.map (fun w =>
          if w.id = video.id then { video with dislikes := video.dislikes - 1 } else w),
        db.comments,
        db.likes.filter (fun l => ¬ l.id = ex.id),
        db.nextId⟩) := by
  simp only [dislikeVideo, dislikeVideoAt, hfv, hfl, ht, Like.deleteOne, Video.save, reduceIte]

theorem dislikeVideo_flip {db : DB} {uid vid : Nat} {video : Video} {ex : Like}
    (hfv : Video.findById db vid = some video)
    (hfl : Like.findOneVideo db uid vid = some ex)
    (ht : ex.type = .like) :
    dislikeVideo uid vid db =
      (.ok "Changed like to dislike",
       ⟨db.videos.map (fun w =>
          if w.id = video.id then
            { video with likes := video.likes - 1, dislikes := video.dislikes + 1 }
          else w),
        db.comments,
        db.likes.map (fun m => if m.id = ex.id then { ex with type := .dislike } else m),
        db.nextId⟩) := by
  simp only [dislikeVideo, dislikeVideoAt, hfv, hfl, ht, Like.save, Video.save, reduceCtorEq,
    reduceIte]

theorem dislikeVideo_createOk {db : DB} {uid vid : Nat} {video : Video}
    (hfv : Video.findById db vid = some video)
    (hfl : Like.findOneVideo db uid vid = none)
    (hnb : ∀ m ∈ db.likes, ¬ (m.user = uid ∧ m.comment = (none : Option Nat))) :
    dislikeVideo uid vid db =
      (.ok "Video disliked",
       ⟨db.videos.map (fun w =>
          if w.id = video.id then { video with dislikes := video.dislikes + 1 } else w),
        db.comments,
        db.likes ++ [⟨db.nextId, uid, some vid, none, .dislike⟩],
        db.nextId + 1⟩) := by
  have hnc : ¬ ((db.likes.any (fun m => m.user = uid ∧ m.video = some vid) : Bool) ∨
      (db.likes.any (fun m => m.user = uid ∧ m.comment = (none : Option Nat)) : Bool)) := by
    rintro (h | h) <;> rw [List.any_eq_true] at h <;> obtain ⟨m, hm, hp⟩ := h <;>
      rw [decide_eq_true_eq] at hp
    · exact (List.find?_eq_none.mp hfl m hm) (by rw [decide_eq_true_eq]; exact hp)
    · exact hnb m hm hp
  simp only [dislikeVideo, dislikeVideoAt, hfv, hfl, Like.create, if_neg hnc, Video.save]

theorem dislikeVideo_createConflict {db : DB} {uid vid : Nat} {video : Video}
    (hfv : Video.findById db vid = some video)
    (hfl : Like.findOneVideo db uid vid = none)
    (hb : db.likes.any (fun m => m.user = uid ∧ m.comment = (none : Option Nat)) = true) :
    dislikeVideo uid vid db = (.serverError, db) := by
  have hc : (db.likes.any (fun m => m.user = uid ∧ m.video = some vid) : Bool) ∨
      (db.likes.any (fun m => m.user = uid ∧ m.comment = (none : Option Nat)) : Bool) :=
    Or.inr hb
  simp only [dislikeVideo, dislikeVideoAt, hfv, hfl, Like.create, if_pos hc]

theorem likeComment_notFound {db : DB} {uid cid : Nat}
    (hfc : Comment.findById db cid = none) :
    likeComment uid cid db = (.notFound "Comment not found", db) := by
  simp only [likeComment, likeCommentAt, hfc]

theorem likeComment_toggle {db : DB} {uid cid : Nat} {comment : Comment} {ex : Like}
    (hfc : Comment.findById db cid = some comment)
    (hfl : Like.findOneComment db uid cid = some ex)
    (ht : ex.type = .like) :
    likeComment uid cid db =
      (.ok "Like removed",
       ⟨db.videos,
        db.comments.map (fun d =>
          if d.id = comment.id then { comment with likes := comment.likes - 1 } else d),
        db.likes.filter (fun l => ¬ l.id = ex.id),
        db.nextId⟩) := by
  simp only [likeComment, likeCommentAt, hfc, hfl, ht, Like.deleteOne, Comment.save, reduceIte]

theorem likeComment_flip {db : DB} {uid cid : Nat} {comment : Comment} {ex : Like}
    (hfc : Comment.findById db cid = some comment)
    (hfl : Like.findOneComment db uid cid = some ex)
    (ht : ex.type = .dislike) :
    likeComment uid cid db =
      (.ok "Changed dislike to like",
       ⟨db.videos,
        db.comments.map (fun d =>
          if d.id = comment.id then
            { comment with likes := comment.likes + 1, dislikes := comment.dislikes - 1 }
          else d),
        db.likes.map (fun m => if m.id = ex.id then { ex with type := .like } else m),
        db.nextId⟩) := by
  simp only [likeComment, likeCommentAt, hfc, hfl, ht, Like.save, Comment.save, reduceCtorEq,
    reduceIte]

theorem likeComment_createOk {db : DB} {uid cid : Nat} {comment : Comment}
    (hfc : Comment.findById db cid = some comment)
    (hfl : Like.findOneComment db uid cid = none)
    (hnb : ∀ m ∈ db.likes, ¬ (m.user = uid ∧ m.video = (none : Option Nat))) :
    likeComment uid cid db =
      (.ok "Comment liked",
       ⟨db.videos,
        db.comments.map (fun d =>
          if d.id = comment.id then { comment with likes := comment.likes + 1 } else d),
        db.likes ++ [⟨db.nextId, uid, none, some cid, .like⟩],
        db.nextId + 1⟩) := by
  have hnc : ¬ ((db.likes.any (fun m => m.user = uid ∧ m.video = (none : Option Nat)) : Bool) ∨
      (db.likes.any (fun m => m.user = uid ∧ m.comment = some cid) : Bool)) := by
    rintro (h | h) <;> rw [List.any_eq_true] at h <;> obtain ⟨m, hm, hp⟩ := h <;>
      rw [decide_eq_true_eq] at hp
    · exact hnb m hm hp
    · exact (List.find?_eq_none.mp hfl m hm) (by rw [decide_eq_true_eq]; exact hp)
  simp only [likeComment, likeCommentAt, hfc, hfl, Like.create, if_neg hnc, Comment.save]

theorem likeComment_createConflict {db : DB} {uid cid : Nat} {comment : Comment}
    (hfc : Comment.findById db cid = some comment)
    (hfl : Like.findOneComment db uid cid = none)
    (hb : db.likes.any (fun m => m.user = uid ∧ m.video = (none : Option Nat)) = true) :
    likeComment uid cid db = (.serverError, db) := by
  have hc : (db.likes.any (fun m => m.user = uid ∧ m.video = (none : Option Nat)) : Bool) ∨
      (db.likes.any (fun m => m.user = uid ∧ m.comment = some cid) : Bool) :=
    Or.inl hb
  simp only [likeComment, likeCommentAt, hfc, hfl, Like.create, if_pos hc]

theorem dislikeComment_notFound {db : DB} {uid cid : Nat}
    (hfc : Comment.findById db cid = none) :
    dislikeComment uid cid db = (.notFound "Comment not found", db) := by
  simp only [dislikeComment, dislikeCommentAt, hfc]

theorem dislikeComment_toggle {db : DB} {uid cid : Nat} {comment : Comment} {ex : Like}
    (hfc : Comment.findById db cid = some comment)
    (hfl : Like.findOneComment db uid cid = some ex)
    (ht : ex.type = .dislike) :
    dislikeComment uid cid db =
      (.ok "Dislike removed",
       ⟨db.videos,
        db.comments.map (fun d =>
          if d.id = comment.id then { comment with dislikes := comment.dislikes - 1 } else d),
        db.likes.filter (fun l => ¬ l.id = ex.id),
        db.nextId⟩) := by
  simp only [dislikeComment, dislikeCommentAt, hfc, hfl, ht, Like.deleteOne, Comment.save,
    reduceIte]

theorem dislikeComment_flip {db : DB} {uid cid : Nat} {comment : Comment} {ex : Like}
    (hfc : Comment.findById db cid = some comment)
    (hfl : Like.findOneComment db uid cid = some ex)
    (ht : ex.type = .like) :
    dislikeComment uid cid db =
      (.ok "Changed like to dislike",
       ⟨db.videos,
        db.comments.map (fun d =>
          if d.id = comment.id then
            { comment with likes := comment.likes - 1, dislikes := comment.dislikes + 1 }
          else d),
        db.likes.map (fun m => if m.id = ex.id then { ex with type := .dislike } else m),
        db.nextId⟩) := by
  simp only [dislikeComment, dislikeCommentAt, hfc, hfl, ht, Like.save, Comment.save,
    reduceCtorEq, reduceIte]

theorem dislikeComment_createOk {db : DB} {uid cid : Nat} {comment : Comment}
    (hfc : Comment.findById db cid = some comment)
    (hfl : Like.findOneComment db uid cid = none)
    (hnb : ∀ m ∈ db.likes, ¬ (m.user = uid ∧ m.video = (none : Option Nat))) :
    dislikeComment uid cid db =
      (.ok "Comment disliked",
       ⟨db.videos,
        db.comments.map (fun d =>
          if d.id = comment.id then { comment with dislikes := comment.dislikes + 1 } else d),
        db.likes ++ [⟨db.nextId, uid, none, some cid, .dislike⟩],
        db.nextId + 1⟩) := by
  have hnc : ¬ ((db.likes.any (fun m => m.user = uid ∧ m.video = (none : Option Nat)) : Bool) ∨
      (db.likes.any (fun m => m.user = uid ∧ m.comment = some cid) : Bool)) := by
    rintro (h | h) <;> rw [List.any_eq_true] at h <;> obtain ⟨m, hm, hp⟩ := h <;>
      rw [decide_eq_true_eq] at hp
    · exact hnb m hm hp
    · exact (List.find?_eq_none.mp hfl m hm) (by rw [decide_eq_true_eq]; exact hp)
  simp only [dislikeComment, dislikeCommentAt, hfc, hfl, Like.create, if_neg hnc, Comment.save]

theorem dislikeComment_createConflict {db : DB} {uid cid : Nat} {comment : Comment}
    (hfc : Comment.findById db cid = some comment)
    (hfl : Like.findOneComment db uid cid = none)
    (hb : db.likes.any (fun m => m.user = uid ∧ m.video = (none : Option Nat)) = true) :
    dislikeComment uid cid db = (.serverError, db) := by
  have hc : (db.likes.any (fun m => m.user = uid ∧ m.video = (none : Option Nat)) : Bool) ∨
      (db.likes.any (fun m => m.user = uid ∧ m.comment = some cid) : Bool) :=
    Or.inl hb
  simp only [dislikeComment, dislikeCommentAt, hfc, hfl, Like.create, if_pos hc]

theorem deleteVideo_notFound {db : DB} {uid vid : Nat}
    (hfv : Video.findById db vid = none) :
    deleteVideo uid vid db = (.notFound "Video not found", db) := by
  simp only [deleteVideo, hfv]

theorem deleteVideo_unauthorized {db : DB} {uid vid : Nat} {video : Video}
    (hfv : Video.findById db vid = some video) (hu : ¬ video.user = uid) :
    deleteVideo uid vid db =
      (.unauthorized "Not authorized to delete this video", db) := by
  simp only [deleteVideo, hfv, if_pos hu]

theorem deleteVideo_ok {db : DB} {uid vid : Nat} {video : Video}
    (hfv : Video.findById db vid = some video) (hu : video.user = uid) :
    deleteVideo uid vid db =
      (.ok "Video removed",
       ⟨db.videos.filter (fun v => ¬ v.id = vid),
        db.comments.filter (fun c => ¬ c.video = vid),
        db.likes.filter (fun l => ¬ l.video = some vid),
        db.nextId⟩) := by
  simp only [deleteVideo, hfv, Like.deleteManyVideo, if_neg (not_not_intro hu)]

theorem deleteComment_notFound {db : DB} {uid cid : Nat}
    (hfc : Comment.findById db cid = none) :
    deleteComment uid cid db = (.notFound "Comment not found", db) := by
  simp only [deleteComment, hfc]

theorem deleteComment_unauthorized {db : DB} {uid cid : Nat} {comment : Comment}
    (hfc : Comment.findById db cid = some comment) (hu : ¬ comment.user = uid) :
    deleteComment uid cid db =
      (.unauthorized "Not authorized to delete this comment", db) := by
  simp only [deleteComment, hfc, if_pos hu]

theorem deleteComment_ok_parent {db : DB} {uid cid : Nat} {comment : Comment}
    (hfc : Comment.findById db cid = some comment) (hu : comment.user = uid)
    (hr : comment.isReply = false) :
    deleteComment uid cid db =
      (.ok "Comment removed",
       ⟨db.videos,
        (db.comments.filter (fun c => ¬ c.parentComment = some cid)).filter
          (fun c => ¬ c.id = cid),
        db.likes.filter (fun l => ¬ l.comment = some cid),
        db.nextId⟩) := by
  simp only [deleteComment, hfc, Like.deleteManyComment, if_neg (not_not_intro hu),
    if_pos (show ¬ comment.isReply = true by rw [hr]; exact Bool.false_ne_true)]

theorem deleteComment_ok_reply {db : DB} {uid cid : Nat} {comment : Comment}
    (hfc : Comment.findById db cid = some comment) (hu : comment.user = uid)
    (hr : comment.isReply = true) :
    deleteComment uid cid db =
      (.ok "Comment removed",
       ⟨db.videos,
        (db.comments.map (fun c =>
           if some c.id = comment.parentComment then
             { c with replies := c.replies.filter (fun r => ¬ r = cid) }
           else c)).filter (fun c => ¬ c.id = cid),
        db.likes.filter (fun l => ¬ l.comment = some cid),
        db.nextId⟩) := by
  simp only [deleteComment, hfc, Like.deleteManyComment, if_neg (not_not_intro hu),
    if_neg (not_not_intro hr)]

theorem addComment_notFound {db : DB} {uid vid : Nat}
    (hfv : Video.findById db vid = none) :
    addComment uid vid db = (.notFound "Video not found", db) := by
  simp only [addComment, hfv]

theorem addComment_ok {db : DB} {uid vid : Nat} {video : Video}
    (hfv : Video.findById db vid = some video) :
    addComment uid vid db =
      (.created,
       ⟨db.videos,
        db.comments ++ [⟨db.nextId, uid, video.id, 0, 0, [], false, none⟩],
        db.likes,
        db.nextId + 1⟩) := by
  simp only [addComment, hfv]

theorem addReply_notFound {db : DB} {uid cid : Nat}
    (hfc : Comment.findById db cid = none) :
    addReply uid cid db = (.notFound "Comment not found", db) := by
  unfold addReply
  rw [hfc]

theorem addReply_ok {db : DB} {uid cid : Nat} {parent : Comment}
    (hfc : Comment.findById db cid = some parent) :
    addReply uid cid db =
      (.created,
       ⟨db.videos,
        (db.comments ++
            [(⟨db.nextId, uid, parent.video, 0, 0, [], true, some parent.id⟩ : Comment)]).map
          (fun d => if d.id = parent.id then
            { parent with replies := parent.replies ++ [db.nextId] } else d),
        db.likes,
        db.nextId + 1⟩) := by
  simp only [addReply, Comment.save, hfc]

end Chars

section FindFacts

theorem findById_video_facts {db : DB} {vid : Nat} {video : Video}
    (hfv : Video.findById db vid = some video) :
    video ∈ db.videos ∧ video.id = vid := by
  refine ⟨List.mem_of_find?_eq_some hfv, ?_⟩
  have h := List.find?_some hfv
  rwa [decide_eq_true_eq] at h

theorem findById_comment_facts {db : DB} {cid : Nat} {comment : Comment}
    (hfc : Comment.findById db cid = some comment) :
    comment ∈ db.comments ∧ comment.id = cid := by
  refine ⟨List.mem_of_find?_eq_some hfc, ?_⟩
  have h := List.find?_some hfc
  rwa [decide_eq_true_eq] at h

theorem findOneVideo_facts {db : DB} {uid vid : Nat} {ex : Like}
    (hfl : Like.findOneVideo db uid vid = some ex) :
    ex ∈ db.likes ∧ ex.user = uid ∧ ex.video = some vid := by
  refine ⟨List.mem_of_find?_eq_some hfl, ?_⟩
  have h := List.find?_some hfl
  rwa [decide_eq_true_eq] at h

theorem findOneComment_facts {db : DB} {uid cid : Nat} {ex : Like}
    (hfl : Like.findOneComment db uid cid = some ex) :
    ex ∈ db.likes ∧ ex.user = uid ∧ ex.comment = some cid := by
  refine ⟨List.mem_of_find?_eq_some hfl, ?_⟩
  have h := List.find?_some hfl
  rwa [decide_eq_true_eq] at h

theorem findOneVideo_none {db : DB} {uid vid : Nat}
    (hfl : Like.findOneVideo db uid vid = none) :
    ∀ l ∈ db.likes, ¬ (l.user = uid ∧ l.video = some vid) := by
  intro l hl hp
  exact List.find?_eq_none.mp hfl l hl (by rwa [decide_eq_true_eq])

theorem findOneComment_none {db : DB} {uid cid : Nat}
    (hfl : Like.findOneComment db uid cid = none) :
    ∀ l ∈ db.likes, ¬ (l.user = uid ∧ l.comment = some cid) := by
  intro l hl hp
  exact List.find?_eq_none.mp hfl l hl (by rwa [decide_eq_true_eq])

theorem findById_video_none {db : DB} {vid : Nat}
    (hfv : Video.findById db vid = none) :
    ∀ v ∈ db.videos, ¬ v.id = vid := by
  intro v hv hp
  exact List.find?_eq_none.mp hfv v hv (by rwa [decide_eq_true_eq])

theorem comment_none_of_video {db : DB} (hone : OneTarget db) {l : Like}
    (hl : l ∈ db.likes) {v : Nat} (hv : l.video = some v) : l.comment = none := by
  have h := hone l hl
  rw [hv] at h
  cases hc : l.comment with
  | none => rfl
  | some c => rw [hc] at h; simp at h

theorem video_none_of_comment {db : DB} (hone : OneTarget db) {l : Like}
    (hl : l ∈ db.likes) {c : Nat} (hc : l.comment = some c) : l.video = none := by
  have h := hone l hl
  rw [hc] at h
  cases hv : l.video with
  | none => rfl
  | some v => rw [hv] at h; simp at h

theorem save_video_ids {vs : List Video} {video newv : Video} (hid : newv.id = video.id) :
    (vs.map (fun w => if w.id = video.id then newv else w)).map Video.id
      = vs.map Video.id :=
  map_key_of_preserve _ _ (fun w => by
    by_cases h : w.id = video.id
    · rw [if_pos h, hid, h]
    · rw [if_neg h]) vs

theorem save_comment_ids {cs : List Comment} {c0 newc : Comment} (hid : newc.id = c0.id) :
    (cs.map (fun d => if d.id = c0.id then newc else d)).map Comment.id
      = cs.map Comment.id :=
  map_key_of_preserve _ _ (fun d => by
    by_cases h : d.id = c0.id
    · rw [if_pos h, hid, h]
    · rw [if_neg h]) cs

theorem mem_save_video {vs : List Video} {video newv : Video}
    (hvN : (vs.map Video.id).Nodup) (hv : video ∈ vs)
    {w' : Video} (hw' : w' ∈ vs.map (fun w => if w.id = video.id then newv else w)) :
    w' = newv ∨ (w' ∈ vs ∧ ¬ w'.id = video.id) := by
  obtain ⟨w, hw, rfl⟩ := List.mem_map.mp hw'
  by_cases h : w.id = video.id
  · left; rw [if_pos h]
  · right; rw [if_neg h]; exact ⟨hw, h⟩

theorem mem_save_comment {cs : List Comment} {c0 newc : Comment}
    (hcN : (cs.map Comment.id).Nodup) (hc : c0 ∈ cs)
    {d' : Comment} (hd' : d' ∈ cs.map (fun d => if d.id = c0.id then newc else d)) :
    d' = newc ∨ (d' ∈ cs ∧ ¬ d'.id = c0.id) := by
  obtain ⟨d, hd, rfl⟩ := List.mem_map.mp hd'
  by_cases h : d.id = c0.id
  · left; rw [if_pos h]
  · right; rw [if_neg h]; exact ⟨hd, h⟩

theorem mem_update_like {ls : List Like} {ex b : Like}
    {l' : Like} (hl' : l' ∈ ls.map (fun m => if m.id = ex.id then b else m)) :
    l' = b ∨ (l' ∈ ls ∧ ¬ l'.id = ex.id) := by
  obtain ⟨m, hm, rfl⟩ := List.mem_map.mp hl'
  by_cases h : m.id = ex.id
  · left; rw [if_pos h]
  · right; rw [if_neg h]; exact ⟨hm, h⟩

theorem update_like_ids (ls : List Like) (ex b : Like) (hb : b.id = ex.id) :
    (ls.map (fun m => if m.id = ex.id then b else m)).map Like.id = ls.map Like.id :=
  map_key_of_preserve _ _ (fun m => by
    by_cases h : m.id = ex.id
    · rw [if_pos h, hb, h]
    · rw [if_neg h]) ls

theorem forall_not_of_any_eq_false {α : Type} {p : α → Bool} {ls : List α}
    (h : ls.any p = false) : ∀ a ∈ ls, ¬ (p a = true) := by
  intro a ha hp
  have ht : ls.any p = true := List.any_eq_true.mpr ⟨a, ha, hp⟩
  rw [h] at ht
  exact Bool.false_ne_true ht

end FindFacts

section WFShapes

theorem wf_toggleVideo {db db' : DB} {uid vid : Nat} {video : Video} (newv : Video)
    {ex : Like}
    (hwf : WF db)
    (hfv : Video.findById db vid = some video)
    (hfl : Like.findOneVideo db uid vid = some ex)
    (hid : newv.id = video.id)
    (hl : newv.likes = video.likes - (if ex.type = .like then (1 : Int) else 0))
    (hd : newv.dislikes = video.dislikes - (if ex.type = .dislike then (1 : Int) else 0))
    (hV : db'.videos = db.videos.map (fun w => if w.id = video.id then newv else w))
    (hC : db'.comments = db.comments)
    (hL : db'.likes = db.likes.filter (fun l => ¬ l.id = ex.id))
    (hN : db'.nextId = db.nextId) :
    WF db' := by
  obtain ⟨hvN, hcN, hlN, hfr, hone, huniq, hcnt, href⟩ := hwf
  obtain ⟨hv_mem, hv_id⟩ := findById_video_facts hfv
  obtain ⟨hex_mem, hex_user, hex_vid⟩ := findOneVideo_facts hfl
  have hex_com : ex.comment = none := comment_none_of_video hone hex_mem hex_vid
  refine ⟨?_, ?_, ?_, ?_, ?_, ?_, ?_, ?_⟩
  · rw [hV, save_video_ids hid]
    exact hvN
  · rw [hC]
    exact hcN
  · rw [hL]
    exact List.Nodup.sublist (List.Sublist.map Like.id (List.filter_sublist _)) hlN
  · refine ⟨?_, ?_, ?_⟩
    · intro w' hw'
      rw [hV] at hw'
      rw [hN]
      rcases mem_save_video hvN hv_mem hw' with rfl | ⟨hw, _⟩
      · rw [hid]
        exact hfr.1 video hv_mem
      · exact hfr.1 w' hw
    · intro c hc
      rw [hC] at hc
      rw [hN]
      exact hfr.2.1 c hc
    · intro l hl'
      rw [hL] at hl'
      rw [hN]
      exact hfr.2.2 l (List.mem_filter.mp hl').1
  · intro l hl'
    rw [hL] at hl'
    exact hone l (List.mem_filter.mp hl').1
  · intro l hl' m hm' hu harg
    rw [hL] at hl' hm'
    exact huniq l (List.mem_filter.mp hl').1 m (List.mem_filter.mp hm').1 hu harg
  · refine ⟨?_, ?_⟩
    · intro w' hw'
      rw [hV] at hw'
      rw [hL]
      rcases mem_save_video hvN hv_mem hw' with rfl | ⟨hw, hwid⟩
      · obtain ⟨hcl, hcd⟩ := hcnt.1 video hv_mem
        have hrl := countVideo_remove hlN hex_mem vid .like
        have hrd := countVideo_remove hlN hex_mem vid .dislike
        rw [hv_id] at hcl hcd
        rw [hid, hv_id]
        cases hext : ex.type with
        | like =>
          rw [if_pos ⟨hex_vid, hext⟩] at hrl
          rw [if_neg (fun hp => LikeType.noConfusion (hext.symm.trans hp.2))] at hrd
          rw [if_pos hext] at hl
          rw [if_neg (fun hp => LikeType.noConfusion (hext.symm.trans hp))] at hd
          exact ⟨by omega, by omega⟩
        | dislike =>
          rw [if_neg (fun hp => LikeType.noConfusion (hext.symm.trans hp.2))] at hrl
          rw [if_pos ⟨hex_vid, hext⟩] at hrd
          rw [if_neg (fun hp => LikeType.noConfusion (hext.symm.trans hp))] at hl
          rw [if_pos hext] at hd
          exact ⟨by omega, by omega⟩
      · obtain ⟨hcl, hcd⟩ := hcnt.1 w' hw
        have hne : ∀ t : LikeType, ¬ (ex.video = some w'.id ∧ ex.type = t) := by
          rintro t ⟨hv1, -⟩
          rw [hex_vid] at hv1
          exact hwid ((Option.some_injective _ hv1).symm.trans hv_id.symm)
        have hrl := countVideo_remove hlN hex_mem w'.id .like
        have hrd := countVideo_remove hlN hex_mem w'.id .dislike
        rw [if_neg (hne .like)] at hrl
        rw [if_neg (hne .dislike)] at hrd
        exact ⟨by omega, by omega⟩
    · intro c hc
      rw [hC] at hc
      rw [hL]
      obtain ⟨hcl, hcd⟩ := hcnt.2 c hc
      have hne : ∀ t : LikeType, ¬ (ex.comment = some c.id ∧ ex.type = t) := by
        rintro t ⟨hc1, -⟩
        rw [hex_com] at hc1
        exact Option.noConfusion hc1
      have hrl := countComment_remove hlN hex_mem c.id .like
      have hrd := countComment_remove hlN hex_mem c.id .dislike
      rw [if_neg (hne .like)] at hrl
      rw [if_neg (hne .dislike)] at hrd
      exact ⟨by omega, by omega⟩
  · intro l hl'
    rw [hL] at hl'
    rw [hV, save_video_ids hid]
    exact href l (List.mem_filter.mp hl').1

theorem wf_flipVideo {db db' : DB} {uid vid : Nat} {video : Video} (newv : Video)
    {ex : Like} {t : LikeType}
    (hwf : WF db)
    (hfv : Video.findById db vid = some video)
    (hfl : Like.findOneVideo db uid vid = some ex)
    (hid : newv.id = video.id)
    (hl : newv.likes = video.likes - (if ex.type = .like then (1 : Int) else 0)
            + (if t = .like then (1 : Int) else 0))
    (hd : newv.dislikes = video.dislikes - (if ex.type = .dislike then (1 : Int) else 0)
            + (if t = .dislike then (1 : Int) else 0))
    (hV : db'.videos = db.videos.map (fun w => if w.id = video.id then newv else w))
    (hC : db'.comments = db.comments)
    (hL : db'.likes = db.likes.map (fun m =>
            if m.id = ex.id then ⟨ex.id, ex.user, ex.video, ex.comment, t⟩ else m))
    (hN : db'.nextId = db.nextId) :
    WF db' := by
  obtain ⟨hvN, hcN, hlN, hfr, hone, huniq, hcnt, href⟩ := hwf
  obtain ⟨hv_mem, hv_id⟩ := findById_video_facts hfv
  obtain ⟨hex_mem, hex_user, hex_vid⟩ := findOneVideo_facts hfl
  have hex_com : ex.comment = none := comment_none_of_video hone hex_mem hex_vid
  refine ⟨?_, ?_, ?_, ?_, ?_, ?_, ?_, ?_⟩
  · rw [hV, save_video_ids hid]
    exact hvN
  · rw [hC]
    exact hcN
  · rw [hL, update_like_ids db.likes ex ⟨ex.id, ex.user, ex.video, ex.comment, t⟩ rfl]
    exact hlN
  · refine ⟨?_, ?_, ?_⟩
    · intro w' hw'
      rw [hV] at hw'
      rw [hN]
      rcases mem_save_video hvN hv_mem hw' with rfl | ⟨hw, _⟩
      · rw [hid]
        exact hfr.1 video hv_mem
      · exact hfr.1 w' hw
    · intro c hc
      rw [hC] at hc
      rw [hN]
      exact hfr.2.1 c hc
    · intro l hl'
      rw [hL] at hl'
      rw [hN]
      rcases mem_update_like hl' with rfl | ⟨hml, _⟩
      · exact hfr.2.2 ex hex_mem
      · exact hfr.2.2 l hml
  · intro l hl'
    rw [hL] at hl'
    rcases mem_update_like hl' with rfl | ⟨hml, _⟩
    · exact hone ex hex_mem
    · exact hone l hml
  · intro l hl' m hm' hu harg
    rw [hL] at hl' hm'
    rcases mem_update_like hl' with rfl | ⟨hml, hidl⟩ <;>
      rcases mem_update_like hm' with rfl | ⟨hmm, hidm⟩
    · rfl
    · exact absurd (congrArg Like.id (huniq ex hex_mem m hmm hu harg)).symm hidm
    · exact absurd (congrArg Like.id (huniq l hml ex hex_mem hu harg)) hidl
    · exact huniq l hml m hmm hu harg
  · refine ⟨?_, ?_⟩
    · intro w' hw'
      rw [hV] at hw'
      rw [hL]
      rcases mem_save_video hvN hv_mem hw' with rfl | ⟨hw, hwid⟩
      · obtain ⟨hcl, hcd⟩ := hcnt.1 video hv_mem
        have hrl := countVideo_update
          (b := ⟨ex.id, ex.user, ex.video, ex.comment, t⟩) hlN hex_mem vid .like
        have hrd := countVideo_update
          (b := ⟨ex.id, ex.user, ex.video, ex.comment, t⟩) hlN hex_mem vid .dislike
        rw [hv_id] at hcl hcd
        rw [hid, hv_id]
        cases hext : ex.type <;> cases htt : t <;>
          simp only [hext, htt, hex_vid, reduceCtorEq, reduceIte, and_true, and_false,
            eq_self_iff_true, and_self, if_true, if_false] at hrl hrd hl hd ⊢ <;>
          exact ⟨by omega, by omega⟩
      · obtain ⟨hcl, hcd⟩ := hcnt.1 w' hw
        have hxv : ¬ w'.id = vid := fun h => hwid (h.trans hv_id.symm)
        have hvx : ∀ o : Option Nat, o = ex.video → ¬ o = some w'.id := by
          intro o ho h
          rw [ho, hex_vid] at h
          exact hxv (Option.some_injective _ h).symm
        have hrl := countVideo_update
          (b := ⟨ex.id, ex.user, ex.video, ex.comment, t⟩) hlN hex_mem w'.id .like
        have hrd := countVideo_update
          (b := ⟨ex.id, ex.user, ex.video, ex.comment, t⟩) hlN hex_mem w'.id .dislike
        have hneA : ∀ t0 : LikeType, ¬ (ex.video = some w'.id ∧ ex.type = t0) :=
          fun t0 hp => hvx _ rfl hp.1
        have hneB : ∀ t0 : LikeType,
            ¬ ((⟨ex.id, ex.user, ex.video, ex.comment, t⟩ : Like).video = some w'.id ∧
               (⟨ex.id, ex.user, ex.video, ex.comment, t⟩ : Like).type = t0) :=
          fun t0 hp => hvx _ rfl hp.1
        rw [if_neg (hneA .like), if_neg (hneB .like)] at hrl
        rw [if_neg (hneA .dislike), if_neg (hneB .dislike)] at hrd
        exact ⟨by omega, by omega⟩
    · intro c hc
      rw [hC] at hc
      rw [hL]
      obtain ⟨hcl, hcd⟩ := hcnt.2 c hc
      have hvc : ∀ o : Option Nat, o = ex.comment → ¬ o = some c.id := by
        intro o ho h
        rw [ho, hex_com] at h
        exact Option.noConfusion h
      have hrl := countComment_update
        (b := ⟨ex.id, ex.user, ex.video, ex.comment, t⟩) hlN hex_mem c.id .like
      have hrd := countComment_update
        (b := ⟨ex.id, ex.user, ex.video, ex.comment, t⟩) hlN hex_mem c.id .dislike
      have hneA : ∀ t0 : LikeType, ¬ (ex.comment = some c.id ∧ ex.type = t0) :=
        fun t0 hp => hvc _ rfl hp.1
      have hneB : ∀ t0 : LikeType,
          ¬ ((⟨ex.id, ex.user, ex.video, ex.comment, t⟩ : Like).comment = some c.id ∧
             (⟨ex.id, ex.user, ex.video, ex.comment, t⟩ : Like).type = t0) :=
        fun t0 hp => hvc _ rfl hp.1
      rw [if_neg (hneA .like), if_neg (hneB .like)] at hrl
      rw [if_neg (hneA .dislike), if_neg (hneB .dislike)] at hrd
      exact ⟨by omega, by omega⟩
  · intro l hl'
    rw [hL] at hl'
    rw [hV, save_video_ids hid]
    rcases mem_update_like hl' with rfl | ⟨hml, _⟩
    · exact href ex hex_mem
    · exact href l hml

theorem wf_createVideo {db db' : DB} {uid vid : Nat} {video : Video} (newv : Video)
    {t : LikeType}
    (hwf : WF db)
    (hfv : Video.findById db vid = some video)
    (hfl : Like.findOneVideo db uid vid = none)
    (hid : newv.id = video.id)
    (hl : newv.likes = video.likes + (if t = .like then (1 : Int) else 0))
    (hd : newv.dislikes = video.dislikes + (if t = .dislike then (1 : Int) else 0))
    (hV : db'.videos = db.videos.map (fun w => if w.id = video.id then newv else w))
    (hC : db'.comments = db.comments)
    (hL : db'.likes = db.likes ++ [⟨db.nextId, uid, some vid, none, t⟩])
    (hN : db'.nextId = db.nextId + 1) :
    WF db' := by
  obtain ⟨hvN, hcN, hlN, hfr, hone, huniq, hcnt, href⟩ := hwf
  obtain ⟨hv_mem, hv_id⟩ := findById_video_facts hfv
  have hnone := findOneVideo_none hfl
  refine ⟨?_, ?_, ?_, ?_, ?_, ?_, ?_, ?_⟩
  · rw [hV, save_video_ids hid]
    exact hvN
  · rw [hC]
    exact hcN
  · rw [hL, List.map_append, List.nodup_append]
    refine ⟨hlN, by simp, ?_⟩
    intro a ha hb
    simp only [List.map_cons, List.map_nil, List.mem_singleton] at hb
    obtain ⟨l0, hl0, rfl⟩ := List.mem_map.mp ha
    have := (hfr.2.2 l0 hl0).1
    rw [hb] at this
    omega
  · refine ⟨?_, ?_, ?_⟩
    · intro w' hw'
      rw [hV] at hw'
      rw [hN]
      rcases mem_save_video hvN hv_mem hw' with rfl | ⟨hw, _⟩
      · rw [hid]
        have := hfr.1 video hv_mem
        omega
      · have := hfr.1 w' hw
        omega
    · intro c hc
      rw [hC] at hc
      rw [hN]
      have := hfr.2.1 c hc
      omega
    · intro l hl'
      rw [hL] at hl'
      rw [hN]
      rcases List.mem_append.mp hl' with hml | hml
      · obtain ⟨h1, h2, h3⟩ := hfr.2.2 l hml
        refine ⟨by omega, ?_, ?_⟩
        · cases hv0 : l.video with
          | none => trivial
          | some x =>
            rw [hv0] at h2
            show x < db.nextId + 1
            have : x < db.nextId := h2
            omega
        · cases hc0 : l.comment with
          | none => trivial
          | some x =>
            rw [hc0] at h3
            show x < db.nextId + 1
            have : x < db.nextId := h3
            omega
      · rw [List.mem_singleton] at hml
        subst hml
        refine ⟨show db.nextId < db.nextId + 1 by omega, ?_, trivial⟩
        show vid < db.nextId + 1
        have := hfr.1 video hv_mem
        rw [hv_id] at this
        omega
  · intro l hl'
    rw [hL] at hl'
    rcases List.mem_append.mp hl' with hml | hml
    · exact hone l hml
    · rw [List.mem_singleton] at hml
      subst hml
      rfl
  · intro l hl' m hm' hu harg
    rw [hL] at hl' hm'
    rcases List.mem_append.mp hl' with hml | hml <;>
      rcases List.mem_append.mp hm' with hmm | hmm
    · exact huniq l hml m hmm hu harg
    · rw [List.mem_singleton] at hmm
      subst hmm
      rcases harg with ⟨hv1, -⟩ | ⟨hc1, hc2⟩
      · exact absurd ⟨hu, hv1⟩ (hnone l hml)
      · rw [hc1] at hc2
        simp at hc2
    · rw [List.mem_singleton] at hml
      subst hml
      rcases harg with ⟨hv1, -⟩ | ⟨hc1, hc2⟩
      · exact absurd ⟨hu.symm, hv1.symm⟩ (hnone m hmm)
      · simp at hc2
    · rw [List.mem_singleton] at hml hmm
      subst hml
      subst hmm
      rfl
  · refine ⟨?_, ?_⟩
    · intro w' hw'
      rw [hV] at hw'
      rw [hL]
      rcases mem_save_video hvN hv_mem hw' with rfl | ⟨hw, hwid⟩
      · obtain ⟨hcl, hcd⟩ := hcnt.1 video hv_mem
        have hrl := countVideo_append db.likes ⟨db.nextId, uid, some vid, none, t⟩ vid .like
        have hrd := countVideo_append db.likes ⟨db.nextId, uid, some vid, none, t⟩ vid .dislike
        rw [hv_id] at hcl hcd
        rw [hid, hv_id]
        cases htt : t <;>
          simp only [htt, reduceCtorEq, reduceIte, and_true, and_false, eq_self_iff_true,
            and_self, if_true, if_false] at hrl hrd hl hd ⊢ <;>
          exact ⟨by omega, by omega⟩
      · obtain ⟨hcl, hcd⟩ := hcnt.1 w' hw
        have hxv : ¬ w'.id = vid := fun h => hwid (h.trans hv_id.symm)
        have hrl := countVideo_append db.likes ⟨db.nextId, uid, some vid, none, t⟩ w'.id .like
        have hrd := countVideo_append db.likes ⟨db.nextId, uid, some vid, none, t⟩ w'.id .dislike
        have hne : ∀ t0 : LikeType,
            ¬ ((⟨db.nextId, uid, some vid, none, t⟩ : Like).video = some w'.id ∧
               (⟨db.nextId, uid, some vid, none, t⟩ : Like).type = t0) := by
          rintro t0 ⟨hv1, -⟩
          have h5 : some vid = some w'.id := hv1
          exact hxv (Option.some_injective _ h5).symm
        rw [if_neg (hne .like)] at hrl
        rw [if_neg (hne .dislike)] at hrd
        exact ⟨by omega, by omega⟩
    · intro c hc
      rw [hC] at hc
      rw [hL]
      obtain ⟨hcl, hcd⟩ := hcnt.2 c hc
      have hrl := countComment_append db.likes ⟨db.nextId, uid, some vid, none, t⟩ c.id .like
      have hrd := countComment_append db.likes ⟨db.nextId, uid, some vid, none, t⟩ c.id .dislike
      have hne : ∀ t0 : LikeType,
          ¬ ((⟨db.nextId, uid, some vid, none, t⟩ : Like).comment = some c.id ∧
             (⟨db.nextId, uid, some vid, none, t⟩ : Like).type = t0) := by
        rintro t0 ⟨hc1, -⟩
        exact Option.noConfusion (show (none : Option Nat) = some c.id from hc1)
      rw [if_neg (hne .like)] at hrl
      rw [if_neg (hne .dislike)] at hrd
      exact ⟨by omega, by omega⟩
  · intro l hl'
    rw [hL] at hl'
    rw [hV, save_video_ids hid]
    rcases List.mem_append.mp hl' with hml | hml
    · exact href l hml
    · rw [List.mem_singleton] at hml
      subst hml
      show vid ∈ db.videos.map Video.id
      exact List.mem_map.mpr ⟨video, hv_mem, hv_id⟩

theorem wf_toggleComment {db db' : DB} {uid cid : Nat} {comment : Comment} (newc : Comment)
    {ex : Like}
    (hwf : WF db)
    (hfc : Comment.findById db cid = some comment)
    (hfl : Like.findOneComment db uid cid = some ex)
    (hid : newc.id = comment.id)
    (hl : newc.likes = comment.likes - (if ex.type = .like then (1 : Int) else 0))
    (hd : newc.dislikes = comment.dislikes - (if ex.type = .dislike then (1 : Int) else 0))
    (hV : db'.videos = db.videos)
    (hC : db'.comments = db.comments.map (fun d => if d.id = comment.id then newc else d))
    (hL : db'.likes = db.likes.filter (fun l => ¬ l.id = ex.id))
    (hN : db'.nextId = db.nextId) :
    WF db' := by
  obtain ⟨hvN, hcN, hlN, hfr, hone, huniq, hcnt, href⟩ := hwf
  obtain ⟨hc_mem, hc_id⟩ := findById_comment_facts hfc
  obtain ⟨hex_mem, hex_user, hex_cid⟩ := findOneComment_facts hfl
  have hex_vid : ex.video = none := video_none_of_comment hone hex_mem hex_cid
  refine ⟨?_, ?_, ?_, ?_, ?_, ?_, ?_, ?_⟩
  · rw [hV]
    exact hvN
  · rw [hC, save_comment_ids hid]
    exact hcN
  · rw [hL]
    exact List.Nodup.sublist (List.Sublist.map Like.id (List.filter_sublist _)) hlN
  · refine ⟨?_, ?_, ?_⟩
    · intro w hw
      rw [hV] at hw
      rw [hN]
      exact hfr.1 w hw
    · intro d' hd'
      rw [hC] at hd'
      rw [hN]
      rcases mem_save_comment hcN hc_mem hd' with rfl | ⟨hw, _⟩
      · rw [hid]
        exact hfr.2.1 comment hc_mem
      · exact hfr.2.1 d' hw
    · intro l hl'
      rw [hL] at hl'
      rw [hN]
      exact hfr.2.2 l (List.mem_filter.mp hl').1
  · intro l hl'
    rw [hL] at hl'
    exact hone l (List.mem_filter.mp hl').1
  · intro l hl' m hm' hu harg
    rw [hL] at hl' hm'
    exact huniq l (List.mem_filter.mp hl').1 m (List.mem_filter.mp hm').1 hu harg
  · refine ⟨?_, ?_⟩
    · intro w hw
      rw [hV] at hw
      rw [hL]
      obtain ⟨hcl, hcd⟩ := hcnt.1 w hw
      have hne : ∀ t0 : LikeType, ¬ (ex.video = some w.id ∧ ex.type = t0) := by
        rintro t0 ⟨hv1, -⟩
        rw [hex_vid] at hv1
        exact Option.noConfusion hv1
      have hrl := countVideo_remove hlN hex_mem w.id .like
      have hrd := countVideo_remove hlN hex_mem w.id .dislike
      rw [if_neg (hne .like)] at hrl
      rw [if_neg (hne .dislike)] at hrd
      exact ⟨by omega, by omega⟩
    · intro d' hd'
      rw [hC] at hd'
      rw [hL]
      rcases mem_save_comment hcN hc_mem hd' with rfl | ⟨hw, hwid⟩
      · obtain ⟨hcl, hcd⟩ := hcnt.2 comment hc_mem
        have hrl := countComment_remove hlN hex_mem cid .like
        have hrd := countComment_remove hlN hex_mem cid .dislike
        rw [hc_id] at hcl hcd
        rw [hid, hc_id]
        cases hext : ex.type with
        | like =>
          rw [if_pos ⟨hex_cid, hext⟩] at hrl
          rw [if_neg (fun hp => LikeType.noConfusion (hext.symm.trans hp.2))] at hrd
          rw [if_pos hext] at hl
          rw [if_neg (fun hp => LikeType.noConfusion (hext.symm.trans hp))] at hd
          exact ⟨by omega, by omega⟩
        | dislike =>
          rw [if_neg (fun hp => LikeType.noConfusion (hext.symm.trans hp.2))] at hrl
          rw [if_pos ⟨hex_cid, hext⟩] at hrd
          rw [if_neg (fun hp => LikeType.noConfusion (hext.symm.trans hp))] at hl
          rw [if_pos hext] at hd
          exact ⟨by omega, by omega⟩
      · obtain ⟨hcl, hcd⟩ := hcnt.2 d' hw
        have hne : ∀ t0 : LikeType, ¬ (ex.comment = some d'.id ∧ ex.type = t0) := by
          rintro t0 ⟨hc1, -⟩
          rw [hex_cid] at hc1
          exact hwid ((Option.some_injective _ hc1).symm.trans hc_id.symm)
        have hrl := countComment_remove hlN hex_mem d'.id .like
        have hrd := countComment_remove hlN hex_mem d'.id .dislike
        rw [if_neg (hne .like)] at hrl
        rw [if_neg (hne .dislike)] at hrd
        exact ⟨by omega, by omega⟩
  · intro l hl'
    rw [hL] at hl'
    rw [hV]
    exact href l (List.mem_filter.mp hl').1

theorem wf_flipComment {db db' : DB} {uid cid : Nat} {comment : Comment} (newc : Comment)
    {ex : Like} {t : LikeType}
    (hwf : WF db)
    (hfc : Comment.findById db cid = some comment)
    (hfl : Like.findOneComment db uid cid = some ex)
    (hid : newc.id = comment.id)
    (hl : newc.likes = comment.likes - (if ex.type = .like then (1 : Int) else 0)
            + (if t = .like then (1 : Int) else 0))
    (hd : newc.dislikes = comment.dislikes - (if ex.type = .dislike then (1 : Int) else 0)
            + (if t = .dislike then (1 : Int) else 0))
    (hV : db'.videos = db.videos)
    (hC : db'.comments = db.comments.map (fun d => if d.id = comment.id then newc else d))
    (hL : db'.likes = db.likes.map (fun m =>
            if m.id = ex.id then ⟨ex.id, ex.user, ex.video, ex.comment, t⟩ else m))
    (hN : db'.nextId = db.nextId) :
    WF db' := by
  obtain ⟨hvN, hcN, hlN, hfr, hone, huniq, hcnt, href⟩ := hwf
  obtain ⟨hc_mem, hc_id⟩ := findById_comment_facts hfc
  obtain ⟨hex_mem, hex_user, hex_cid⟩ := findOneComment_facts hfl
  have hex_vid : ex.video = none := video_none_of_comment hone hex_mem hex_cid
  refine ⟨?_, ?_, ?_, ?_, ?_, ?_, ?_, ?_⟩
  · rw [hV]
    exact hvN
  · rw [hC, save_comment_ids hid]
    exact hcN
  · rw [hL, update_like_ids db.likes ex ⟨ex.id, ex.user, ex.video, ex.comment, t⟩ rfl]
    exact hlN
  · refine ⟨?_, ?_, ?_⟩
    · intro w hw
      rw [hV] at hw
      rw [hN]
      exact hfr.1 w hw
    · intro d' hd'
      rw [hC] at hd'
      rw [hN]
      rcases mem_save_comment hcN hc_mem hd' with rfl | ⟨hw, _⟩
      · rw [hid]
        exact hfr.2.1 comment hc_mem
      · exact hfr.2.1 d' hw
    · intro l hl'
      rw [hL] at hl'
      rw [hN]
      rcases mem_update_like hl' with rfl | ⟨hml, _⟩
      · exact hfr.2.2 ex hex_mem
      · exact hfr.2.2 l hml
  · intro l hl'
    rw [hL] at hl'
    rcases mem_update_like hl' with rfl | ⟨hml, _⟩
    · exact hone ex hex_mem
    · exact hone l hml
  · intro l hl' m hm' hu harg
    rw [hL] at hl' hm'
    rcases mem_update_like hl' with rfl | ⟨hml, hidl⟩ <;>
      rcases mem_update_like hm' with rfl | ⟨hmm, hidm⟩
    · rfl
    · exact absurd (congrArg Like.id (huniq ex hex_mem m hmm hu harg)).symm hidm
    · exact absurd (congrArg Like.id (huniq l hml ex hex_mem hu harg)) hidl
    · exact huniq l hml m hmm hu harg
  · refine ⟨?_, ?_⟩
    · intro w hw
      rw [hV] at hw
      rw [hL]
      obtain ⟨hcl, hcd⟩ := hcnt.1 w hw
      have hvx : ∀ o : Option Nat, o = ex.video → ¬ o = some w.id := by
        intro o ho h
        rw [ho, hex_vid] at h
        exact Option.noConfusion h
      have hrl := countVideo_update
        (b := ⟨ex.id, ex.user, ex.video, ex.comment, t⟩) hlN hex_mem w.id .like
      have hrd := countVideo_update
        (b := ⟨ex.id, ex.user, ex.video, ex.comment, t⟩) hlN hex_mem w.id .dislike
      have hneA : ∀ t0 : LikeType, ¬ (ex.video = some w.id ∧ ex.type = t0) :=
        fun t0 hp => hvx _ rfl hp.1
      have hneB : ∀ t0 : LikeType,
          ¬ ((⟨ex.id, ex.user, ex.video, ex.comment, t⟩ : Like).video = some w.id ∧
             (⟨ex.id, ex.user, ex.video, ex.comment, t⟩ : Like).type = t0) :=
        fun t0 hp => hvx _ rfl hp.1
      rw [if_neg (hneA .like), if_neg (hneB .like)] at hrl
      rw [if_neg (hneA .dislike), if_neg (hneB .dislike)] at hrd
      exact ⟨by omega, by omega⟩
    · intro d' hd'
      rw [hC] at hd'
      rw [hL]
      rcases mem_save_comment hcN hc_mem hd' with rfl | ⟨hw, hwid⟩
      · obtain ⟨hcl, hcd⟩ := hcnt.2 comment hc_mem
        have hrl := countComment_update
          (b := ⟨ex.id, ex.user, ex.video, ex.comment, t⟩) hlN hex_mem cid .like
        have hrd := countComment_update
          (b := ⟨ex.id, ex.user, ex.video, ex.comment, t⟩) hlN hex_mem cid .dislike
        rw [hc_id] at hcl hcd
        rw [hid, hc_id]
        cases hext : ex.type <;> cases htt : t <;>
          simp only [hext, htt, hex_cid, reduceCtorEq, reduceIte, and_true, and_false,
            eq_self_iff_true, and_self, if_true, if_false] at hrl hrd hl hd ⊢ <;>
          exact ⟨by omega, by omega⟩
      · obtain ⟨hcl, hcd⟩ := hcnt.2 d' hw
        have hxc : ¬ d'.id = cid := fun h => hwid (h.trans hc_id.symm)
        have hcx : ∀ o : Option Nat, o = ex.comment → ¬ o = some d'.id := by
          intro o ho h
          rw [ho, hex_cid] at h
          exact hxc (Option.some_injective _ h).symm
        have hrl := countComment_update
          (b := ⟨ex.id, ex.user, ex.video, ex.comment, t⟩) hlN hex_mem d'.id .like
        have hrd := countComment_update
          (b := ⟨ex.id, ex.user, ex.video, ex.comment, t⟩) hlN hex_mem d'.id .dislike
        have hneA : ∀ t0 : LikeType, ¬ (ex.comment = some d'.id ∧ ex.type = t0) :=
          fun t0 hp => hcx _ rfl hp.1
        have hneB : ∀ t0 : LikeType,
            ¬ ((⟨ex.id, ex.user, ex.video, ex.comment, t⟩ : Like).comment = some d'.id ∧
               (⟨ex.id, ex.user, ex.video, ex.comment, t⟩ : Like).type = t0) :=
          fun t0 hp => hcx _ rfl hp.1
        rw [if_neg (hneA .like), if_neg (hneB .like)] at hrl
        rw [if_neg (hneA .dislike), if_neg (hneB .dislike)] at hrd
        exact ⟨by omega, by omega⟩
  · intro l hl'
    rw [hL] at hl'
    rw [hV]
    rcases mem_update_like hl' with rfl | ⟨hml, _⟩
    · exact href ex hex_mem
    · exact href l hml

theorem wf_createComment {db db' : DB} {uid cid : Nat} {comment : Comment} (newc : Comment)
    {t : LikeType}
    (hwf : WF db)
    (hfc : Comment.findById db cid = some comment)
    (hfl : Like.findOneComment db uid cid = none)
    (hid : newc.id = comment.id)
    (hl : newc.likes = comment.likes + (if t = .like then (1 : Int) else 0))
    (hd : newc.dislikes = comment.dislikes + (if t = .dislike then (1 : Int) else 0))
    (hV : db'.videos = db.videos)
    (hC : db'.comments = db.comments.map (fun d => if d.id = comment.id then newc else d))
    (hL : db'.likes = db.likes ++ [⟨db.nextId, uid, none, some cid, t⟩])
    (hN : db'.nextId = db.nextId + 1) :
    WF db' := by
  obtain ⟨hvN, hcN, hlN, hfr, hone, huniq, hcnt, href⟩ := hwf
  obtain ⟨hc_mem, hc_id⟩ := findById_comment_facts hfc
  have hnone := findOneComment_none hfl
  refine ⟨?_, ?_, ?_, ?_, ?_, ?_, ?_, ?_⟩
  · rw [hV]
    exact hvN
  · rw [hC, save_comment_ids hid]
    exact hcN
  · rw [hL, List.map_append, List.nodup_append]
    refine ⟨hlN, by simp, ?_⟩
    intro a ha hb
    simp only [List.map_cons, List.map_nil, List.mem_singleton] at hb
    obtain ⟨l0, hl0, rfl⟩ := List.mem_map.mp ha
    have := (hfr.2.2 l0 hl0).1
    rw [hb] at this
    omega
  · refine ⟨?_, ?_, ?_⟩
    · intro w hw
      rw [hV] at hw
      rw [hN]
      have := hfr.1 w hw
      omega
    · intro d' hd'
      rw [hC] at hd'
      rw [hN]
      rcases mem_save_comment hcN hc_mem hd' with rfl | ⟨hw, _⟩
      · rw [hid]
        have := hfr.2.1 comment hc_mem
        omega
      · have := hfr.2.1 d' hw
        omega
    · intro l hl'
      rw [hL] at hl'
      rw [hN]
      rcases List.mem_append.mp hl' with hml | hml
      · obtain ⟨h1, h2, h3⟩ := hfr.2.2 l hml
        refine ⟨by omega, ?_, ?_⟩
        · cases hv0 : l.video with
          | none => trivial
          | some x =>
            rw [hv0] at h2
            show x < db.nextId + 1
            have : x < db.nextId := h2
            omega
        · cases hc0 : l.comment with
          | none => trivial
          | some x =>
            rw [hc0] at h3
            show x < db.nextId + 1
            have : x < db.nextId := h3
            omega
      · rw [List.mem_singleton] at hml
        subst hml
        refine ⟨show db.nextId < db.nextId + 1 by omega, trivial, ?_⟩
        show cid < db.nextId + 1
        have := hfr.2.1 comment hc_mem
        rw [hc_id] at this
        omega
  · intro l hl'
    rw [hL] at hl'
    rcases List.mem_append.mp hl' with hml | hml
    · exact hone l hml
    · rw [List.mem_singleton] at hml
      subst hml
      rfl
  · intro l hl' m hm' hu harg
    rw [hL] at hl' hm'
    rcases List.mem_append.mp hl' with hml | hml <;>
      rcases List.mem_append.mp hm' with hmm | hmm
    · exact huniq l hml m hmm hu harg
    · rw [List.mem_singleton] at hmm
      subst hmm
      rcases harg with ⟨hv1, hv2⟩ | ⟨hc1, -⟩
      · rw [hv1] at hv2
        simp at hv2
      · exact absurd ⟨hu, hc1⟩ (hnone l hml)
    · rw [List.mem_singleton] at hml
      subst hml
      rcases harg with ⟨hv1, hv2⟩ | ⟨hc1, -⟩
      · simp at hv2
      · exact absurd ⟨hu.symm, hc1.symm⟩ (hnone m hmm)
    · rw [List.mem_singleton] at hml hmm
      subst hml
      subst hmm
      rfl
  · refine ⟨?_, ?_⟩
    · intro w hw
      rw [hV] at hw
      rw [hL]
      obtain ⟨hcl, hcd⟩ := hcnt.1 w hw
      have hrl := countVideo_append db.likes ⟨db.nextId, uid, none, some cid, t⟩ w.id .like
      have hrd := countVideo_append db.likes ⟨db.nextId, uid, none, some cid, t⟩ w.id .dislike
      have hne : ∀ t0 : LikeType,
          ¬ ((⟨db.nextId, uid, none, some cid, t⟩ : Like).video = some w.id ∧
             (⟨db.nextId, uid, none, some cid, t⟩ : Like).type = t0) := by
        rintro t0 ⟨hv1, -⟩
        exact Option.noConfusion (show (none : Option Nat) = some w.id from hv1)
      rw [if_neg (hne .like)] at hrl
      rw [if_neg (hne .dislike)] at hrd
      exact ⟨by omega, by omega⟩
    · intro d' hd'
      rw [hC] at hd'
      rw [hL]
      rcases mem_save_comment hcN hc_mem hd' with rfl | ⟨hw, hwid⟩
      · obtain ⟨hcl, hcd⟩ := hcnt.2 comment hc_mem
        have hrl := countComment_append db.likes ⟨db.nextId, uid, none, some cid, t⟩ cid .like
        have hrd := countComment_append db.likes ⟨db.nextId, uid, none, some cid, t⟩ cid .dislike
        rw [hc_id] at hcl hcd
        rw [hid, hc_id]
        cases htt : t <;>
          simp only [htt, reduceCtorEq, reduceIte, and_true, and_false, eq_self_iff_true,
            and_self, if_true, if_false] at hrl hrd hl hd ⊢ <;>
          exact ⟨by omega, by omega⟩
      · obtain ⟨hcl, hcd⟩ := hcnt.2 d' hw
        have hxc : ¬ d'.id = cid := fun h => hwid (h.trans hc_id.symm)
        have hrl := countComment_append db.likes ⟨db.nextId, uid, none, some cid, t⟩ d'.id .like
        have hrd := countComment_append db.likes ⟨db.nextId, uid, none, some cid, t⟩ d'.id .dislike
        have hne : ∀ t0 : LikeType,
            ¬ ((⟨db.nextId, uid, none, some cid, t⟩ : Like).comment = some d'.id ∧
               (⟨db.nextId, uid, none, some cid, t⟩ : Like).type = t0) := by
          rintro t0 ⟨hc1, -⟩
          have h5 : some cid = some d'.id := hc1
          exact hxc (Option.some_injective _ h5).symm
        rw [if_neg (hne .like)] at hrl
        rw [if_neg (hne .dislike)] at hrd
        exact ⟨by omega, by omega⟩
  · intro l hl'
    rw [hL] at hl'
    rw [hV]
    rcases List.mem_append.mp hl' with hml | hml
    · exact href l hml
    · rw [List.mem_singleton] at hml
      subst hml
      trivial

theorem wf_deleteVideo {db db' : DB} {vid : Nat}
    (hwf : WF db)
    (hV : db'.videos = db.videos.filter (fun v => ¬ v.id = vid))
    (hC : db'.comments = db.comments.filter (fun c => ¬ c.video = vid))
    (hL : db'.likes = db.likes.filter (fun l => ¬ l.video = some vid))
    (hN : db'.nextId = db.nextId) :
    WF db' := by
  obtain ⟨hvN, hcN, hlN, hfr, hone, huniq, hcnt, href⟩ := hwf
  refine ⟨?_, ?_, ?_, ?_, ?_, ?_, ?_, ?_⟩
  · rw [hV]
    exact List.Nodup.sublist (List.Sublist.map Video.id (List.filter_sublist _)) hvN
  · rw [hC]
    exact List.Nodup.sublist (List.Sublist.map Comment.id (List.filter_sublist _)) hcN
  · rw [hL]
    exact List.Nodup.sublist (List.Sublist.map Like.id (List.filter_sublist _)) hlN
  · refine ⟨?_, ?_, ?_⟩
    · intro w hw
      rw [hV] at hw
      rw [hN]
      exact hfr.1 w (List.mem_filter.mp hw).1
    · intro c hc
      rw [hC] at hc
      rw [hN]
      exact hfr.2.1 c (List.mem_filter.mp hc).1
    · intro l hl'
      rw [hL] at hl'
      rw [hN]
      exact hfr.2.2 l (List.mem_filter.mp hl').1
  · intro l hl'
    rw [hL] at hl'
    exact hone l (List.mem_filter.mp hl').1
  · intro l hl' m hm' hu harg
    rw [hL] at hl' hm'
    exact huniq l (List.mem_filter.mp hl').1 m (List.mem_filter.mp hm').1 hu harg
  · refine ⟨?_, ?_⟩
    · intro w hw
      rw [hV] at hw
      rw [hL]
      obtain ⟨hwm, hwp⟩ := List.mem_filter.mp hw
      rw [decide_eq_true_eq] at hwp
      obtain ⟨hcl, hcd⟩ := hcnt.1 w hwm
      have hkeep : ∀ l ∈ db.likes, l.video = some w.id →
          (fun l : Like => (¬ l.video = some vid : Bool)) l = true := by
        intro l hlm hlv
        rw [decide_eq_true_eq, hlv]
        intro hc
        exact hwp (Option.some_injective _ hc)
      rw [countVideo_filter_keep hkeep, countVideo_filter_keep hkeep]
      exact ⟨hcl, hcd⟩
    · intro c hc
      rw [hC] at hc
      rw [hL]
      obtain ⟨hcm, -⟩ := List.mem_filter.mp hc
      obtain ⟨hcl, hcd⟩ := hcnt.2 c hcm
      have hkeep : ∀ l ∈ db.likes, l.comment = some c.id →
          (fun l : Like => (¬ l.video = some vid : Bool)) l = true := by
        intro l hlm hlc
        rw [decide_eq_true_eq, video_none_of_comment hone hlm hlc]
        exact fun hc2 => Option.noConfusion hc2
      rw [countComment_filter_keep hkeep, countComment_filter_keep hkeep]
      exact ⟨hcl, hcd⟩
  · intro l hl'
    rw [hL] at hl'
    rw [hV]
    obtain ⟨hlm, hlp⟩ := List.mem_filter.mp hl'
    rw [decide_eq_true_eq] at hlp
    have h0 := href l hlm
    cases hv0 : l.video with
    | none => trivial
    | some x =>
      rw [hv0] at h0 hlp
      have hx : x ∈ db.videos.map Video.id := h0
      show x ∈ (db.videos.filter (fun v => ¬ v.id = vid)).map Video.id
      obtain ⟨v, hvm, hvx⟩ := List.mem_map.mp hx
      refine List.mem_map.mpr ⟨v, List.mem_filter.mpr ⟨hvm, ?_⟩, hvx⟩
      rw [decide_eq_true_eq, hvx]
      intro hxe
      exact hlp (congrArg some hxe)

theorem wf_deleteCommentParent {db db' : DB} {cid : Nat}
    (hwf : WF db)
    (hV : db'.videos = db.videos)
    (hC : db'.comments = (db.comments.filter (fun c => ¬ c.parentComment = some cid)).filter
            (fun c => ¬ c.id = cid))
    (hL : db'.likes = db.likes.filter (fun l => ¬ l.comment = some cid))
    (hN : db'.nextId = db.nextId) :
    WF db' := by
  obtain ⟨hvN, hcN, hlN, hfr, hone, huniq, hcnt, href⟩ := hwf
  have hmemc : ∀ {c : Comment}, c ∈ (db.comments.filter
        (fun c => ¬ c.parentComment = some cid)).filter (fun c => ¬ c.id = cid) →
      c ∈ db.comments ∧ ¬ c.id = cid := by
    intro c hc
    obtain ⟨hc1, hc2⟩ := List.mem_filter.mp hc
    rw [decide_eq_true_eq] at hc2
    exact ⟨(List.mem_filter.mp hc1).1, hc2⟩
  refine ⟨?_, ?_, ?_, ?_, ?_, ?_, ?_, ?_⟩
  · rw [hV]
    exact hvN
  · rw [hC]
    exact List.Nodup.sublist
      (List.Sublist.map Comment.id ((List.filter_sublist _).trans (List.filter_sublist _))) hcN
  · rw [hL]
    exact List.Nodup.sublist (List.Sublist.map Like.id (List.filter_sublist _)) hlN
  · refine ⟨?_, ?_, ?_⟩
    · intro w hw
      rw [hV] at hw
      rw [hN]
      exact hfr.1 w hw
    · intro c hc
      rw [hC] at hc
      rw [hN]
      exact hfr.2.1 c (hmemc hc).1
    · intro l hl'
      rw [hL] at hl'
      rw [hN]
      exact hfr.2.2 l (List.mem_filter.mp hl').1
  · intro l hl'
    rw [hL] at hl'
    exact hone l (List.mem_filter.mp hl').1
  · intro l hl' m hm' hu harg
    rw [hL] at hl' hm'
    exact huniq l (List.mem_filter.mp hl').1 m (List.mem_filter.mp hm').1 hu harg
  · refine ⟨?_, ?_⟩
    · intro w hw
      rw [hV] at hw
      rw [hL]
      obtain ⟨hcl, hcd⟩ := hcnt.1 w hw
      have hkeep : ∀ l ∈ db.likes, l.video = some w.id →
          (fun l : Like => (¬ l.comment = some cid : Bool)) l = true := by
        intro l hlm hlv
        rw [decide_eq_true_eq, comment_none_of_video hone hlm hlv]
        exact fun hc2 => Option.noConfusion hc2
      rw [countVideo_filter_keep hkeep, countVideo_filter_keep hkeep]
      exact ⟨hcl, hcd⟩
    · intro c hc
      rw [hC] at hc
      rw [hL]
      obtain ⟨hcm, hcne⟩ := hmemc hc
      obtain ⟨hcl, hcd⟩ := hcnt.2 c hcm
      have hkeep : ∀ l ∈ db.likes, l.comment = some c.id →
          (fun l : Like => (¬ l.comment = some cid : Bool)) l = true := by
        intro l hlm hlc
        rw [decide_eq_true_eq, hlc]
        intro hc2
        exact hcne (Option.some_injective _ hc2)
      rw [countComment_filter_keep hkeep, countComment_filter_keep hkeep]
      exact ⟨hcl, hcd⟩
  · intro l hl'
    rw [hL] at hl'
    rw [hV]
    exact href l (List.mem_filter.mp hl').1

theorem wf_deleteCommentReply {db db' : DB} {cid : Nat} {comment : Comment}
    (hwf : WF db)
    (hfc : Comment.findById db cid = some comment)
    (hV : db'.videos = db.videos)
    (hC : db'.comments = (db.comments.map (fun c =>
            if some c.id = comment.parentComment then
              { c with replies := c.replies.filter (fun r => ¬ r = cid) }
            else c)).filter (fun c => ¬ c.id = cid))
    (hL : db'.likes = db.likes.filter (fun l => ¬ l.comment = some cid))
    (hN : db'.nextId = db.nextId) :
    WF db' := by
  obtain ⟨hvN, hcN, hlN, hfr, hone, huniq, hcnt, href⟩ := hwf
  have hpres : ∀ c : Comment,
      (if some c.id = comment.parentComment then
        { c with replies := c.replies.filter (fun r => ¬ r = cid) }
      else c).id = c.id ∧
      (if some c.id = comment.parentComment then
        { c with replies := c.replies.filter (fun r => ¬ r = cid) }
      else c).likes = c.likes ∧
      (if some c.id = comment.parentComment then
        { c with replies := c.replies.filter (fun r => ¬ r = cid) }
      else c).dislikes = c.dislikes := by
    intro c
    by_cases h : some c.id = comment.parentComment
    · rw [if_pos h]
      exact ⟨rfl, rfl, rfl⟩
    · rw [if_neg h]
      exact ⟨rfl, rfl, rfl⟩
  have hmemc : ∀ {c : Comment}, c ∈ (db.comments.map (fun c =>
        if some c.id = comment.parentComment then
          { c with replies := c.replies.filter (fun r => ¬ r = cid) }
        else c)).filter (fun c => ¬ c.id = cid) →
      ∃ d ∈ db.comments, c.id = d.id ∧ c.likes = d.likes ∧ c.dislikes = d.dislikes ∧
        ¬ c.id = cid := by
    intro c hc
    obtain ⟨hc1, hc2⟩ := List.mem_filter.mp hc
    rw [decide_eq_true_eq] at hc2
    obtain ⟨d, hd, rfl⟩ := List.mem_map.mp hc1
    obtain ⟨h1, h2, h3⟩ := hpres d
    exact ⟨d, hd, h1, h2, h3, hc2⟩
  refine ⟨?_, ?_, ?_, ?_, ?_, ?_, ?_, ?_⟩
  · rw [hV]
    exact hvN
  · rw [hC]
    refine List.Nodup.sublist (List.Sublist.map Comment.id (List.filter_sublist _)) ?_
    rw [map_key_of_preserve Comment.id _ (fun c => (hpres c).1) db.comments]
    exact hcN
  · rw [hL]
    exact List.Nodup.sublist (List.Sublist.map Like.id (List.filter_sublist _)) hlN
  · refine ⟨?_, ?_, ?_⟩
    · intro w hw
      rw [hV] at hw
      rw [hN]
      exact hfr.1 w hw
    · intro c hc
      rw [hC] at hc
      rw [hN]
      obtain ⟨d, hd, h1, -, -, -⟩ := hmemc hc
      rw [h1]
      exact hfr.2.1 d hd
    · intro l hl'
      rw [hL] at hl'
      rw [hN]
      exact hfr.2.2 l (List.mem_filter.mp hl').1
  · intro l hl'
    rw [hL] at hl'
    exact hone l (List.mem_filter.mp hl').1
  · intro l hl' m hm' hu harg
    rw [hL] at hl' hm'
    exact huniq l (List.mem_filter.mp hl').1 m (List.mem_filter.mp hm').1 hu harg
  · refine ⟨?_, ?_⟩
    · intro w hw
      rw [hV] at hw
      rw [hL]
      obtain ⟨hcl, hcd⟩ := hcnt.1 w hw
      have hkeep : ∀ l ∈ db.likes, l.video = some w.id →
          (fun l : Like => (¬ l.comment = some cid : Bool)) l = true := by
        intro l hlm hlv
        rw [decide_eq_true_eq, comment_none_of_video hone hlm hlv]
        exact fun hc2 => Option.noConfusion hc2
      rw [countVideo_filter_keep hkeep, countVideo_filter_keep hkeep]
      exact ⟨hcl, hcd⟩
    · intro c hc
      rw [hC] at hc
      rw [hL]
      obtain ⟨d, hd, h1, h2, h3, hcne⟩ := hmemc hc
      obtain ⟨hcl, hcd⟩ := hcnt.2 d hd
      have hkeep : ∀ l ∈ db.likes, l.comment = some d.id →
          (fun l : Like => (¬ l.comment = some cid : Bool)) l = true := by
        intro l hlm hlc
        rw [decide_eq_true_eq, hlc]
        intro hc2
        exact hcne (h1.trans (Option.some_injective _ hc2))
      rw [h1, h2, h3, countComment_filter_keep hkeep, countComment_filter_keep hkeep]
      exact ⟨hcl, hcd⟩
  · intro l hl'
    rw [hL] at hl'
    rw [hV]
    exact href l (List.mem_filter.mp hl').1

theorem wf_uploadVideo {db db' : DB} {uid : Nat}
    (hwf : WF db)
    (hV : db'.videos = db.videos ++ [⟨db.nextId, uid, 0, 0⟩])
    (hC : db'.comments = db.comments)
    (hL : db'.likes = db.likes)
    (hN : db'.nextId = db.nextId + 1) :
    WF db' := by
  obtain ⟨hvN, hcN, hlN, hfr, hone, huniq, hcnt, href⟩ := hwf
  refine ⟨?_, ?_, ?_, ?_, ?_, ?_, ?_, ?_⟩
  · rw [hV, List.map_append, List.nodup_append]
    refine ⟨hvN, by simp, ?_⟩
    intro a ha hb
    simp only [List.map_cons, List.map_nil, List.mem_singleton] at hb
    obtain ⟨v0, hv0, rfl⟩ := List.mem_map.mp ha
    have := hfr.1 v0 hv0
    rw [hb] at this
    omega
  · rw [hC]
    exact hcN
  · rw [hL]
    exact hlN
  · refine ⟨?_, ?_, ?_⟩
    · intro w hw
      rw [hV] at hw
      rw [hN]
      rcases List.mem_append.mp hw with hm | hm
      · have := hfr.1 w hm
        omega
      · rw [List.mem_singleton] at hm
        subst hm
        show db.nextId < db.nextId + 1
        omega
    · intro c hc
      rw [hC] at hc
      rw [hN]
      have := hfr.2.1 c hc
      omega
    · intro l hl'
      rw [hL] at hl'
      rw [hN]
      obtain ⟨h1, h2, h3⟩ := hfr.2.2 l hl'
      refine ⟨by omega, ?_, ?_⟩
      · cases hv0 : l.video with
        | none => trivial
        | some x =>
          rw [hv0] at h2
          show x < db.nextId + 1
          have : x < db.nextId := h2
          omega
      · cases hc0 : l.comment with
        | none => trivial
        | some x =>
          rw [hc0] at h3
          show x < db.nextId + 1
          have : x < db.nextId := h3
          omega
  · intro l hl'
    rw [hL] at hl'
    exact hone l hl'
  · intro l hl' m hm' hu harg
    rw [hL] at hl' hm'
    exact huniq l hl' m hm' hu harg
  · refine ⟨?_, ?_⟩
    · intro w hw
      rw [hV] at hw
      rw [hL]
      rcases List.mem_append.mp hw with hm | hm
      · exact hcnt.1 w hm
      · rw [List.mem_singleton] at hm
        subst hm
        have hz : ∀ t : LikeType, Like.countVideo db.likes
            (⟨db.nextId, uid, 0, 0⟩ : Video).id t = 0 := by
          intro t
          refine countVideo_zero ?_ t
          intro l hlm hcon
          have h2 := (hfr.2.2 l hlm).2.1
          rw [hcon] at h2
          have : db.nextId < db.nextId := h2
          omega
        rw [hz .like, hz .dislike]
        exact ⟨rfl, rfl⟩
    · intro c hc
      rw [hC] at hc
      rw [hL]
      exact hcnt.2 c hc
  · intro l hl'
    rw [hL] at hl'
    rw [hV, List.map_append]
    have h0 := href l hl'
    cases hv0 : l.video with
    | none => trivial
    | some x =>
      rw [hv0] at h0
      have hx : x ∈ db.videos.map Video.id := h0
      show x ∈ db.videos.map Video.id ++ [(⟨db.nextId, uid, 0, 0⟩ : Video)].map Video.id
      exact List.mem_append.mpr (Or.inl hx)

theorem wf_addComment {db db' : DB} {uid vid : Nat} {video : Video}
    (hwf : WF db)
    (hfv : Video.findById db vid = some video)
    (hC : db'.comments = db.comments ++ [⟨db.nextId, uid, video.id, 0, 0, [], false, none⟩])
    (hV : db'.videos = db.videos)
    (hL : db'.likes = db.likes)
    (hN : db'.nextId = db.nextId + 1) :
    WF db' := by
  obtain ⟨hvN, hcN, hlN, hfr, hone, huniq, hcnt, href⟩ := hwf
  refine ⟨?_, ?_, ?_, ?_, ?_, ?_, ?_, ?_⟩
  · rw [hV]
    exact hvN
  · rw [hC, List.map_append, List.nodup_append]
    refine ⟨hcN, by simp, ?_⟩
    intro a ha hb
    simp only [List.map_cons, List.map_nil, List.mem_singleton] at hb
    obtain ⟨c0, hc0, rfl⟩ := List.mem_map.mp ha
    have := hfr.2.1 c0 hc0
    rw [hb] at this
    omega
  · rw [hL]
    exact hlN
  · refine ⟨?_, ?_, ?_⟩
    · intro w hw
      rw [hV] at hw
      rw [hN]
      have := hfr.1 w hw
      omega
    · intro c hc
      rw [hC] at hc
      rw [hN]
      rcases List.mem_append.mp hc with hm | hm
      · have := hfr.2.1 c hm
        omega
      · rw [List.mem_singleton] at hm
        subst hm
        show db.nextId < db.nextId + 1
        omega
    · intro l hl'
      rw [hL] at hl'
      rw [hN]
      obtain ⟨h1, h2, h3⟩ := hfr.2.2 l hl'
      refine ⟨by omega, ?_, ?_⟩
      · cases hv0 : l.video with
        | none => trivial
        | some x =>
          rw [hv0] at h2
          show x < db.nextId + 1
          have : x < db.nextId := h2
          omega
      · cases hc0 : l.comment with
        | none => trivial
        | some x =>
          rw [hc0] at h3
          show x < db.nextId + 1
          have : x < db.nextId := h3
          omega
  · intro l hl'
    rw [hL] at hl'
    exact hone l hl'
  · intro l hl' m hm' hu harg
    rw [hL] at hl' hm'
    exact huniq l hl' m hm' hu harg
  · refine ⟨?_, ?_⟩
    · intro w hw
      rw [hV] at hw
      rw [hL]
      exact hcnt.1 w hw
    · intro c hc
      rw [hC] at hc
      rw [hL]
      rcases List.mem_append.mp hc with hm | hm
      · exact hcnt.2 c hm
      · rw [List.mem_singleton] at hm
        subst hm
        have hz : ∀ t : LikeType, Like.countComment db.likes
            (⟨db.nextId, uid, video.id, 0, 0, [], false, none⟩ : Comment).id t = 0 := by
          intro t
          refine countComment_zero ?_ t
          intro l hlm hcon
          have h3 := (hfr.2.2 l hlm).2.2
          rw [hcon] at h3
          have : db.nextId < db.nextId := h3
          omega
        rw [hz .like, hz .dislike]
        exact ⟨rfl, rfl⟩
  · intro l hl'
    rw [hL] at hl'
    rw [hV]
    exact href l hl'

theorem wf_addReply {db db' : DB} {uid cid : Nat} {parent : Comment}
    (hwf : WF db)
    (hfc : Comment.findById db cid = some parent)
    (hC : db'.comments = (db.comments ++
        [(⟨db.nextId, uid, parent.video, 0, 0, [], true, some parent.id⟩ : Comment)]).map
          (fun d => if d.id = parent.id then
            { parent with replies := parent.replies ++ [db.nextId] } else d))
    (hV : db'.videos = db.videos)
    (hL : db'.likes = db.likes)
    (hN : db'.nextId = db.nextId + 1) :
    WF db' := by
  obtain ⟨hvN, hcN, hlN, hfr, hone, huniq, hcnt, href⟩ := hwf
  obtain ⟨hp_mem, hp_id⟩ := findById_comment_facts hfc
  have hupd : ∀ d : Comment,
      (if d.id = parent.id then
        { parent with replies := parent.replies ++ [db.nextId] } else d).id = d.id ∧
      (if d.id = parent.id then
        { parent with replies := parent.replies ++ [db.nextId] } else d).likes
        = (if d.id = parent.id then parent.likes else d.likes) ∧
      (if d.id = parent.id then
        { parent with replies := parent.replies ++ [db.nextId] } else d).dislikes
        = (if d.id = parent.id then parent.dislikes else d.dislikes) := by
    intro d
    by_cases h : d.id = parent.id
    · rw [if_pos h, if_pos h, if_pos h]
      exact ⟨h.symm, rfl, rfl⟩
    · rw [if_neg h, if_neg h, if_neg h]
      exact ⟨rfl, rfl, rfl⟩
  have hmemc : ∀ {c : Comment}, c ∈ db'.comments →
      ∃ d ∈ db.comments ++
          [(⟨db.nextId, uid, parent.video, 0, 0, [], true, some parent.id⟩ : Comment)],
        c.id = d.id ∧ c.likes = (if d.id = parent.id then parent.likes else d.likes) ∧
        c.dislikes = (if d.id = parent.id then parent.dislikes else d.dislikes) := by
    intro c hc
    rw [hC] at hc
    obtain ⟨d, hd, rfl⟩ := List.mem_map.mp hc
    obtain ⟨h1, h2, h3⟩ := hupd d
    exact ⟨d, hd, h1, h2, h3⟩
  refine ⟨?_, ?_, ?_, ?_, ?_, ?_, ?_, ?_⟩
  · rw [hV]
    exact hvN
  · rw [hC, map_key_of_preserve Comment.id _ (fun d => (hupd d).1), List.map_append,
      List.nodup_append]
    refine ⟨hcN, by simp, ?_⟩
    intro a ha hb
    simp only [List.map_cons, List.map_nil, List.mem_singleton] at hb
    obtain ⟨c0, hc0, rfl⟩ := List.mem_map.mp ha
    have := hfr.2.1 c0 hc0
    rw [hb] at this
    omega
  · rw [hL]
    exact hlN
  · refine ⟨?_, ?_, ?_⟩
    · intro w hw
      rw [hV] at hw
      rw [hN]
      have := hfr.1 w hw
      omega
    · intro c hc
      rw [hN]
      obtain ⟨d, hd, h1, -, -⟩ := hmemc hc
      rw [h1]
      rcases List.mem_append.mp hd with hm | hm
      · have := hfr.2.1 d hm
        omega
      · rw [List.mem_singleton] at hm
        subst hm
        show db.nextId < db.nextId + 1
        omega
    · intro l hl'
      rw [hL] at hl'
      rw [hN]
      obtain ⟨h1, h2, h3⟩ := hfr.2.2 l hl'
      refine ⟨by omega, ?_, ?_⟩
      · cases hv0 : l.video with
        | none => trivial
        | some x =>
          rw [hv0] at h2
          show x < db.nextId + 1
          have : x < db.nextId := h2
          omega
      · cases hc0 : l.comment with
        | none => trivial
        | some x =>
          rw [hc0] at h3
          show x < db.nextId + 1
          have : x < db.nextId := h3
          omega
  · intro l hl'
    rw [hL] at hl'
    exact hone l hl'
  · intro l hl' m hm' hu harg
    rw [hL] at hl' hm'
    exact huniq l hl' m hm' hu harg
  · refine ⟨?_, ?_⟩
    · intro w hw
      rw [hV] at hw
      rw [hL]
      exact hcnt.1 w hw
    · intro c hc
      rw [hL]
      obtain ⟨d, hd, h1, h2, h3⟩ := hmemc hc
      rcases List.mem_append.mp hd with hm | hm
      · by_cases hdp : d.id = parent.id
        · have hdparent : d = parent :=
            eq_of_key_of_nodup Comment.id hcN hm hp_mem hdp
          subst hdparent
          rw [if_pos hdp] at h2 h3
          rw [h1, h2, h3]
          exact hcnt.2 d hm
        · rw [if_neg hdp] at h2 h3
          rw [h1, h2, h3]
          exact hcnt.2 d hm
      · rw [List.mem_singleton] at hm
        subst hm
        have hdp : ¬ (⟨db.nextId, uid, parent.video, 0, 0, [], true,
            some parent.id⟩ : Comment).id = parent.id := by
          show ¬ db.nextId = parent.id
          have := hfr.2.1 parent hp_mem
          omega
        rw [if_neg hdp] at h2 h3
        rw [h1, h2, h3]
        have hz : ∀ t : LikeType, Like.countComment db.likes
            (⟨db.nextId, uid, parent.video, 0, 0, [], true, some parent.id⟩ : Comment).id t
              = 0 := by
          intro t
          refine countComment_zero ?_ t
          intro l hlm hcon
          have h4 := (hfr.2.2 l hlm).2.2
          rw [hcon] at h4
          have : db.nextId < db.nextId := h4
          omega
        rw [hz .like, hz .dislike]
        exact ⟨rfl, rfl⟩
  · intro l hl'
    rw [hL] at hl'
    rw [hV]
    exact href l hl'

end WFShapes

section WFHandlers

theorem wf_likeVideo {db : DB} (hwf : WF db) (uid vid : Nat) :
    WF (likeVideo uid vid db).2 := by
  cases hfv : Video.findById db vid with
  | none => rw [likeVideo_notFound hfv]; exact hwf
  | some video =>
    cases hfl : Like.findOneVideo db uid vid with
    | none =>
      cases hb : db.likes.any (fun m => m.user = uid ∧ m.comment = (none : Option Nat)) with
      | true =>
        rw [likeVideo_createConflict hfv hfl hb]
        exact hwf
      | false =>
        rw [likeVideo_createOk hfv hfl
          (fun m hm hp => forall_not_of_any_eq_false hb m hm (decide_eq_true hp))]
        exact wf_createVideo { video with likes := video.likes + 1 } (t := .like)
          hwf hfv hfl rfl (by simp) (by simp) rfl rfl rfl rfl
    | some ex =>
      cases hext : ex.type with
      | like =>
        rw [likeVideo_toggle hfv hfl hext]
        exact wf_toggleVideo { video with likes := video.likes - 1 }
          hwf hfv hfl rfl (by rw [hext]; simp) (by rw [hext]; simp) rfl rfl rfl rfl
      | dislike =>
        rw [likeVideo_flip hfv hfl hext]
        exact wf_flipVideo
          { video with likes := video.likes + 1, dislikes := video.dislikes - 1 }
          (t := .like) hwf hfv hfl rfl (by rw [hext]; simp)
          (by rw [hext]; simp) rfl rfl rfl rfl

theorem wf_dislikeVideo {db : DB} (hwf : WF db) (uid vid : Nat) :
    WF (dislikeVideo uid vid db).2 := by
  cases hfv : Video.findById db vid with
  | none => rw [dislikeVideo_notFound hfv]; exact hwf
  | some video =>
    cases hfl : Like.findOneVideo db uid vid with
    | none =>
      cases hb : db.likes.any (fun m => m.user = uid ∧ m.comment = (none : Option Nat)) with
      | true =>
        rw [dislikeVideo_createConflict hfv hfl hb]
        exact hwf
      | false =>
        rw [dislikeVideo_createOk hfv hfl
          (fun m hm hp => forall_not_of_any_eq_false hb m hm (decide_eq_true hp))]
        exact wf_createVideo { video with dislikes := video.dislikes + 1 }
          (t := .dislike) hwf hfv hfl rfl (by simp) (by simp) rfl rfl rfl rfl
    | some ex =>
      cases hext : ex.type with
      | dislike =>
        rw [dislikeVideo_toggle hfv hfl hext]
        exact wf_toggleVideo { video with dislikes := video.dislikes - 1 }
          hwf hfv hfl rfl (by rw [hext]; simp) (by rw [hext]; simp) rfl rfl rfl rfl
      | like =>
        rw [dislikeVideo_flip hfv hfl hext]
        exact wf_flipVideo
          { video with likes := video.likes - 1, dislikes := video.dislikes + 1 }
          (t := .dislike) hwf hfv hfl rfl (by rw [hext]; simp)
          (by rw [hext]; simp) rfl rfl rfl rfl

theorem wf_likeComment {db : DB} (hwf : WF db) (uid cid : Nat) :
    WF (likeComment uid cid db).2 := by
  cases hfc : Comment.findById db cid with
  | none => rw [likeComment_notFound hfc]; exact hwf
  | some comment =>
    cases hfl : Like.findOneComment db uid cid with
    | none =>
      cases hb : db.likes.any (fun m => m.user = uid ∧ m.video = (none : Option Nat)) with
      | true =>
        rw [likeComment_createConflict hfc hfl hb]
        exact hwf
      | false =>
        rw [likeComment_createOk hfc hfl
          (fun m hm hp => forall_not_of_any_eq_false hb m hm (decide_eq_true hp))]
        exact wf_createComment { comment with likes := comment.likes + 1 }
          (t := .like) hwf hfc hfl rfl (by simp) (by simp) rfl rfl rfl rfl
    | some ex =>
      cases hext : ex.type with
      | like =>
        rw [likeComment_toggle hfc hfl hext]
        exact wf_toggleComment { comment with likes := comment.likes - 1 }
          hwf hfc hfl rfl (by rw [hext]; simp) (by rw [hext]; simp) rfl rfl rfl rfl
      | dislike =>
        rw [likeComment_flip hfc hfl hext]
        exact wf_flipComment
          { comment with likes := comment.likes + 1, dislikes := comment.dislikes - 1 }
          (t := .like) hwf hfc hfl rfl (by rw [hext]; simp)
          (by rw [hext]; simp) rfl rfl rfl rfl

theorem wf_dislikeComment {db : DB} (hwf : WF db) (uid cid : Nat) :
    WF (dislikeComment uid cid db).2 := by
  cases hfc : Comment.findById db cid with
  | none => rw [dislikeComment_notFound hfc]; exact hwf
  | some comment =>
    cases hfl : Like.findOneComment db uid cid with
    | none =>
      cases hb : db.likes.any (fun m => m.user = uid ∧ m.video = (none : Option Nat)) with
      | true =>
        rw [dislikeComment_createConflict hfc hfl hb]
        exact hwf
      | false =>
        rw [dislikeComment_createOk hfc hfl
          (fun m hm hp => forall_not_of_any_eq_false hb m hm (decide_eq_true hp))]
        exact wf_createComment { comment with dislikes := comment.dislikes + 1 }
          (t := .dislike) hwf hfc hfl rfl (by simp) (by simp) rfl rfl rfl rfl
    | some ex =>
      cases hext : ex.type with
      | dislike =>
        rw [dislikeComment_toggle hfc hfl hext]
        exact wf_toggleComment { comment with dislikes := comment.dislikes - 1 }
          hwf hfc hfl rfl (by rw [hext]; simp) (by rw [hext]; simp) rfl rfl rfl rfl
      | like =>
        rw [dislikeComment_flip hfc hfl hext]
        exact wf_flipComment
          { comment with likes := comment.likes - 1, dislikes := comment.dislikes + 1 }
          (t := .dislike) hwf hfc hfl rfl (by rw [hext]; simp)
          (by rw [hext]; simp) rfl rfl rfl rfl

theorem wf_deleteVideoOp {db : DB} (hwf : WF db) (uid vid : Nat) :
    WF (deleteVideo uid vid db).2 := by
  cases hfv : Video.findById db vid with
  | none => rw [deleteVideo_notFound hfv]; exact hwf
  | some video =>
    by_cases hu : video.user = uid
    · rw [deleteVideo_ok hfv hu]
      exact wf_deleteVideo hwf rfl rfl rfl rfl
    · rw [deleteVideo_unauthorized hfv hu]
      exact hwf

theorem wf_deleteCommentOp {db : DB} (hwf : WF db) (uid cid : Nat) :
    WF (deleteComment uid cid db).2 := by
  cases hfc : Comment.findById db cid with
  | none => rw [deleteComment_notFound hfc]; exact hwf
  | some comment =>
    by_cases hu : comment.user = uid
    · cases hr : comment.isReply with
      | false =>
        rw [deleteComment_ok_parent hfc hu hr]
        exact wf_deleteCommentParent hwf rfl rfl rfl rfl
      | true =>
        rw [deleteComment_ok_reply hfc hu hr]
        exact wf_deleteCommentReply hwf hfc rfl rfl rfl rfl
    · rw [deleteComment_unauthorized hfc hu]
      exact hwf

theorem wf_uploadVideoOp {db : DB} (hwf : WF db) (uid : Nat) :
    WF (uploadVideo uid db).2 :=
  wf_uploadVideo hwf rfl rfl rfl rfl

theorem wf_addCommentOp {db : DB} (hwf : WF db) (uid vid : Nat) :
    WF (addComment uid vid db).2 := by
  cases hfv : Video.findById db vid with
  | none => rw [addComment_notFound hfv]; exact hwf
  | some video =>
    rw [addComment_ok hfv]
    exact wf_addComment hwf hfv rfl rfl rfl rfl

theorem wf_addReplyOp {db : DB} (hwf : WF db) (uid cid : Nat) :
    WF (addReply uid cid db).2 := by
  cases hfc : Comment.findById db cid with
  | none => rw [addReply_notFound hfc]; exact hwf
  | some parent =>
    rw [addReply_ok hfc]
    exact wf_addReply hwf hfc rfl rfl rfl rfl

/-- Every operation of the subsystem preserves well-formedness. -/
theorem wf_step {db : DB} (hwf : WF db) (op : Op) : WF (step op db).2 := by
  cases op with
  | uploadVid uid => exact wf_uploadVideoOp hwf uid
  | addCom uid vid => exact wf_addCommentOp hwf uid vid
  | addRep uid cid => exact wf_addReplyOp hwf uid cid
  | likeVid uid vid => exact wf_likeVideo hwf uid vid
  | dislikeVid uid vid => exact wf_dislikeVideo hwf uid vid
  | likeCom uid cid => exact wf_likeComment hwf uid cid
  | dislikeCom uid cid => exact wf_dislikeComment hwf uid cid
  | deleteVid uid vid => exact wf_deleteVideoOp hwf uid vid
  | deleteCom uid cid => exact wf_deleteCommentOp hwf uid cid

/-- Well-formedness is preserved by arbitrary sequences of operations. -/
theorem wf_run {db : DB} (hwf : WF db) (ops : List Op) : WF (run ops db) := by
  induction ops generalizing db with
  | nil => exact hwf
  | cons op ops ih => exact ih (wf_step hwf op)

end WFHandlers

section FindCompute

/-! Computing the handler's own reads on the mutated store: the reaction row
found for (actor, target) after a delete / kind update / insert, and the
target document found after a counter save. -/

theorem findOneVideo_after_remove {db : DB} {uid vid : Nat} {ex : Like}
    (hwf : WF db) (hfl : Like.findOneVideo db uid vid = some ex) :
    (db.likes.filter (fun l => ¬ l.id = ex.id)).find?
      (fun l => l.user = uid ∧ l.video = some vid) = none := by
  obtain ⟨hex_mem, hex_user, hex_vid⟩ := findOneVideo_facts hfl
  rw [List.find?_eq_none]
  intro l hl hp
  rw [decide_eq_true_eq] at hp
  obtain ⟨hlm, hlne⟩ := List.mem_filter.mp hl
  rw [decide_eq_true_eq] at hlne
  have hle : l = ex := hwf.uniq l hlm ex hex_mem (hp.1.trans hex_user.symm)
    (Or.inl ⟨hp.2.trans hex_vid.symm, by rw [hp.2]; rfl⟩)
  exact hlne (congrArg Like.id hle)

theorem findOneComment_after_remove {db : DB} {uid cid : Nat} {ex : Like}
    (hwf : WF db) (hfl : Like.findOneComment db uid cid = some ex) :
    (db.likes.filter (fun l => ¬ l.id = ex.id)).find?
      (fun l => l.user = uid ∧ l.comment = some cid) = none := by
  obtain ⟨hex_mem, hex_user, hex_cid⟩ := findOneComment_facts hfl
  rw [List.find?_eq_none]
  intro l hl hp
  rw [decide_eq_true_eq] at hp
  obtain ⟨hlm, hlne⟩ := List.mem_filter.mp hl
  rw [decide_eq_true_eq] at hlne
  have hle : l = ex := hwf.uniq l hlm ex hex_mem (hp.1.trans hex_user.symm)
    (Or.inr ⟨hp.2.trans hex_cid.symm, by rw [hp.2]; rfl⟩)
  exact hlne (congrArg Like.id hle)

theorem findOneVideo_after_update {db : DB} {uid vid : Nat} {ex : Like} {t : LikeType}
    (hwf : WF db) (hfl : Like.findOneVideo db uid vid = some ex) :
    (db.likes.map (fun m =>
        if m.id = ex.id then ⟨ex.id, ex.user, ex.video, ex.comment, t⟩ else m)).find?
        (fun l => l.user = uid ∧ l.video = some vid)
      = some ⟨ex.id, ex.user, ex.video, ex.comment, t⟩ := by
  rw [List.find?_map]
  have hcongr : ∀ m ∈ db.likes,
      ((fun l : Like => (l.user = uid ∧ l.video = some vid : Bool)) ∘
        (fun m => if m.id = ex.id then (⟨ex.id, ex.user, ex.video, ex.comment, t⟩ : Like)
          else m)) m
      = (fun l : Like => (l.user = uid ∧ l.video = some vid : Bool)) m := by
    intro m hm
    show (fun l : Like => (l.user = uid ∧ l.video = some vid : Bool))
        (if m.id = ex.id then (⟨ex.id, ex.user, ex.video, ex.comment, t⟩ : Like) else m)
      = _
    by_cases h : m.id = ex.id
    · obtain rfl := eq_of_key_of_nodup Like.id hwf.lNodup hm
        (List.mem_of_find?_eq_some hfl) h
      rw [if_pos h]
    · rw [if_neg h]
  rw [find?_congr_mem _ _ _ hcongr]
  have hfl' : db.likes.find? (fun l => l.user = uid ∧ l.video = some vid) = some ex := hfl
  rw [hfl']
  show some (if ex.id = ex.id then (⟨ex.id, ex.user, ex.video, ex.comment, t⟩ : Like) else ex)
    = _
  rw [if_pos rfl]

theorem findOneComment_after_update {db : DB} {uid cid : Nat} {ex : Like} {t : LikeType}
    (hwf : WF db) (hfl : Like.findOneComment db uid cid = some ex) :
    (db.likes.map (fun m =>
        if m.id = ex.id then ⟨ex.id, ex.user, ex.video, ex.comment, t⟩ else m)).find?
        (fun l => l.user = uid ∧ l.comment = some cid)
      = some ⟨ex.id, ex.user, ex.video, ex.comment, t⟩ := by
  rw [List.find?_map]
  have hcongr : ∀ m ∈ db.likes,
      ((fun l : Like => (l.user = uid ∧ l.comment = some cid : Bool)) ∘
        (fun m => if m.id = ex.id then (⟨ex.id, ex.user, ex.video, ex.comment, t⟩ : Like)
          else m)) m
      = (fun l : Like => (l.user = uid ∧ l.comment = some cid : Bool)) m := by
    intro m hm
    show (fun l : Like => (l.user = uid ∧ l.comment = some cid : Bool))
        (if m.id = ex.id then (⟨ex.id, ex.user, ex.video, ex.comment, t⟩ : Like) else m)
      = _
    by_cases h : m.id = ex.id
    · obtain rfl := eq_of_key_of_nodup Like.id hwf.lNodup hm
        (List.mem_of_find?_eq_some hfl) h
      rw [if_pos h]
    · rw [if_neg h]
  rw [find?_congr_mem _ _ _ hcongr]
  have hfl' : db.likes.find? (fun l => l.user = uid ∧ l.comment = some cid) = some ex := hfl
  rw [hfl']
  show some (if ex.id = ex.id then (⟨ex.id, ex.user, ex.video, ex.comment, t⟩ : Like) else ex)
    = _
  rw [if_pos rfl]

theorem findOneVideo_after_append {db : DB} {uid vid : Nat} {nl : Like}
    (hfl : Like.findOneVideo db uid vid = none)
    (hu : nl.user = uid) (hv : nl.video = some vid) :
    (db.likes ++ [nl]).find? (fun l => l.user = uid ∧ l.video = some vid) = some nl := by
  rw [List.find?_append]
  have hfl' : db.likes.find? (fun l => l.user = uid ∧ l.video = some vid) = none := hfl
  rw [hfl', Option.none_or]
  simp [List.find?_cons, hu, hv]

theorem findOneComment_after_append {db : DB} {uid cid : Nat} {nl : Like}
    (hfl : Like.findOneComment db uid cid = none)
    (hu : nl.user = uid) (hc : nl.comment = some cid) :
    (db.likes ++ [nl]).find? (fun l => l.user = uid ∧ l.comment = some cid) = some nl := by
  rw [List.find?_append]
  have hfl' : db.likes.find? (fun l => l.user = uid ∧ l.comment = some cid) = none := hfl
  rw [hfl', Option.none_or]
  simp [List.find?_cons, hu, hc]

theorem findById_after_save_video {db : DB} {vid : Nat} {video newv : Video}
    (hfv : Video.findById db vid = some video) (hid : newv.id = video.id) :
    (db.videos.map (fun w => if w.id = video.id then newv else w)).find?
      (fun v => v.id = vid) = some newv := by
  rw [List.find?_map]
  have hcongr : ∀ w ∈ db.videos,
      ((fun v : Video => (v.id = vid : Bool)) ∘
        (fun w => if w.id = video.id then newv else w)) w
      = (fun v : Video => (v.id = vid : Bool)) w := by
    intro w _
    show (fun v : Video => (v.id = vid : Bool))
        (if w.id = video.id then newv else w) = _
    by_cases h : w.id = video.id
    · rw [if_pos h]
      show (newv.id = vid : Bool) = (w.id = vid : Bool)
      rw [hid, h]
    · rw [if_neg h]
  rw [find?_congr_mem _ _ _ hcongr]
  have hfv' : db.videos.find? (fun v => v.id = vid) = some video := hfv
  rw [hfv']
  show some (if video.id = video.id then newv else video) = _
  rw [if_pos rfl]

theorem findById_after_save_comment {db : DB} {cid : Nat} {comment newc : Comment}
    (hfc : Comment.findById db cid = some comment) (hid : newc.id = comment.id) :
    (db.comments.map (fun d => if d.id = comment.id then newc else d)).find?
      (fun c => c.id = cid) = some newc := by
  rw [List.find?_map]
  have hcongr : ∀ d ∈ db.comments,
      ((fun c : Comment => (c.id = cid : Bool)) ∘
        (fun d => if d.id = comment.id then newc else d)) d
      = (fun c : Comment => (c.id = cid : Bool)) d := by
    intro d _
    show (fun c : Comment => (c.id = cid : Bool))
        (if d.id = comment.id then newc else d) = _
    by_cases h : d.id = comment.id
    · rw [if_pos h]
      show (newc.id = cid : Bool) = (d.id = cid : Bool)
      rw [hid, h]
    · rw [if_neg h]
  rw [find?_congr_mem _ _ _ hcongr]
  have hfc' : db.comments.find? (fun c => c.id = cid) = some comment := hfc
  rw [hfc']
  show some (if comment.id = comment.id then newc else comment) = _
  rw [if_pos rfl]

end FindCompute

section Claims

/-- The video call site for a requested kind performs exactly the spec's
six-row transition — the actor's reaction afterwards is the row's new state,
and the stored video's counters moved by the row's deltas — under the
proviso that every Like row of this actor whose comment key is missing
already points at this video.  The proviso is what the sparse compound
unique indexes of `models/Like.js` impose on the create branch: a row with
no comment reference is keyed (user, null) in the (user, comment) index, so
an actor holding a video-class reaction elsewhere makes the insert throw a
duplicate-key error and the handler answer 500 with no transition. -/
def VideoSiteMatchesSpec (uid vid : Nat) (k : LikeType) (db : DB) : Prop :=
  ∀ video, Video.findById db vid = some video →
    (∀ m ∈ db.likes, m.user = uid → m.comment = none → m.video = some vid) →
    reactionOnVideo (reactVideo k uid vid db).2 uid vid
        = (specMachine (reactionOnVideo db uid vid) k).newState ∧
    ∃ v', Video.findById (reactVideo k uid vid db).2 vid = some v' ∧
      v'.likes = video.likes + (specMachine (reactionOnVideo db uid vid) k).likeDelta ∧
      v'.dislikes = video.dislikes
        + (specMachine (reactionOnVideo db uid vid) k).dislikeDelta

/-- The comment call site performs exactly the same six-row transition,
under the mirrored proviso of the (user, video) index: every Like row of
this actor whose video key is missing already points at this comment. -/
def CommentSiteMatchesSpec (uid cid : Nat) (k : LikeType) (db : DB) : Prop :=
  ∀ comment, Comment.findById db cid = some comment →
    (∀ m ∈ db.likes, m.user = uid → m.video = none → m.comment = some cid) →
    reactionOnComment (reactComment k uid cid db).2 uid cid
        = (specMachine (reactionOnComment db uid cid) k).newState ∧
    ∃ c', Comment.findById (reactComment k uid cid db).2 cid = some c' ∧
      c'.likes = comment.likes + (specMachine (reactionOnComment db uid cid) k).likeDelta ∧
      c'.dislikes = comment.dislikes
        + (specMachine (reactionOnComment db uid cid) k).dislikeDelta

/-- C1 (amended): for every authenticated actor and existing target, a
react request with requested kind in {like, dislike} performs exactly the
transition of the six-row state machine over (existing reaction kind or
none, requested kind), provided the actor holds no reaction of the same
target class on any other target; without that proviso the create row of
the machine is unreachable, because the insert collides with the actor's
other row at the null key of a sparse compound unique index and the handler
answers 500 performing no transition.  The same amended machine is
implemented at both the video and the comment call sites. -/
theorem c1_react_state_machine (db : DB) (uid tid : Nat) (k : LikeType) (hwf : WF db) :
    VideoSiteMatchesSpec uid tid k db ∧ CommentSiteMatchesSpec uid tid k db := by
  constructor
  · intro video hfv hcls
    cases hfl : Like.findOneVideo db uid tid with
    | none =>
      have hfl' : db.likes.find?
          (fun l => l.user = uid ∧ l.video = some tid) = none := hfl
      have hnb : ∀ m ∈ db.likes, ¬ (m.user = uid ∧ m.comment = (none : Option Nat)) :=
        fun m hm hp => findOneVideo_none hfl m hm ⟨hp.1, hcls m hm hp.1 hp.2⟩
      cases k with
      | like =>
        simp only [reactVideo]
        rw [likeVideo_createOk hfv hfl hnb]
        constructor
        · simp only [reactionOnVideo, Like.findOneVideo]
          rw [findOneVideo_after_append hfl rfl rfl, hfl']
          rfl
        · refine ⟨{ video with likes := video.likes + 1 }, ?_, ?_, ?_⟩
          · simp only [Video.findById]
            exact findById_after_save_video hfv rfl
          · simp only [reactionOnVideo]
            rw [hfl]
            rfl
          · simp only [reactionOnVideo]
            rw [hfl]
            show video.dislikes = video.dislikes + 0
            omega
      | dislike =>
        simp only [reactVideo]
        rw [dislikeVideo_createOk hfv hfl hnb]
        constructor
        · simp only [reactionOnVideo, Like.findOneVideo]
          rw [findOneVideo_after_append hfl rfl rfl, hfl']
          rfl
        · refine ⟨{ video with dislikes := video.dislikes + 1 }, ?_, ?_, ?_⟩
          · simp only [Video.findById]
            exact findById_after_save_video hfv rfl
          · simp only [reactionOnVideo]
            rw [hfl]
            show video.likes = video.likes + 0
            omega
          · simp only [reactionOnVideo]
            rw [hfl]
            rfl
    | some ex =>
      have hfl' : db.likes.find?
          (fun l => l.user = uid ∧ l.video = some tid) = some ex := hfl
      cases hext : ex.type with
      | like =>
        cases k with
        | like =>
          simp only [reactVideo]
          rw [likeVideo_toggle hfv hfl hext]
          constructor
          · simp only [reactionOnVideo, Like.findOneVideo]
            rw [findOneVideo_after_remove hwf hfl, hfl']
            simp only [Option.map_some', Option.map_none', hext, specMachine]
          · refine ⟨{ video with likes := video.likes - 1 }, ?_, ?_, ?_⟩
            · simp only [Video.findById]
              exact findById_after_save_video hfv rfl
            · simp only [reactionOnVideo]
              rw [hfl]
              simp only [Option.map_some', hext, specMachine]
              show video.likes - 1 = video.likes + (-1)
              omega
            · simp only [reactionOnVideo]
              rw [hfl]
              simp only [Option.map_some', hext, specMachine]
              show video.dislikes = video.dislikes + 0
              omega
        | dislike =>
          simp only [reactVideo]
          rw [dislikeVideo_flip hfv hfl hext]
          constructor
          · simp only [reactionOnVideo, Like.findOneVideo]
            rw [findOneVideo_after_update hwf hfl, hfl']
            simp only [Option.map_some', hext, specMachine]
          · refine ⟨{ video with likes := video.likes - 1, dislikes := video.dislikes + 1 }, ?_, ?_, ?_⟩
            · simp only [Video.findById]
              exact findById_after_save_video hfv rfl
            · simp only [reactionOnVideo]
              rw [hfl]
              simp only [Option.map_some', hext, specMachine]
              show video.likes - 1 = video.likes + (-1)
              omega
            · simp only [reactionOnVideo]
              rw [hfl]
              simp only [Option.map_some', hext, specMachine]
      | dislike =>
        cases k with
        | like =>
          simp only [reactVideo]
          rw [likeVideo_flip hfv hfl hext]
          constructor
          · simp only [reactionOnVideo, Like.findOneVideo]
            rw [findOneVideo_after_update hwf hfl, hfl']
            simp only [Option.map_some', hext, specMachine]
          · refine ⟨{ video with likes := video.likes + 1, dislikes := video.dislikes - 1 }, ?_, ?_, ?_⟩
            · simp only [Video.findById]
              exact findById_after_save_video hfv rfl
            · simp only [reactionOnVideo]
              rw [hfl]
              simp only [Option.map_some', hext, specMachine]
            · simp only [reactionOnVideo]
              rw [hfl]
              simp only [Option.map_some', hext, specMachine]
              show video.dislikes - 1 = video.dislikes + (-1)
              omega
        | dislike =>
          simp only [reactVideo]
          rw [dislikeVideo_toggle hfv hfl hext]
          constructor
          · simp only [reactionOnVideo, Like.findOneVideo]
            rw [findOneVideo_after_remove hwf hfl, hfl']
            simp only [Option.map_some', Option.map_none', hext, specMachine]
          · refine ⟨{ video with dislikes := video.dislikes - 1 }, ?_, ?_, ?_⟩
            · simp only [Video.findById]
              exact findById_after_save_video hfv rfl
            · simp only [reactionOnVideo]
              rw [hfl]
              simp only [Option.map_some', hext, specMachine]
              show video.likes = video.likes + 0
              omega
            · simp only [reactionOnVideo]
              rw [hfl]
              simp only [Option.map_some', hext, specMachine]
              show video.dislikes - 1 = video.dislikes + (-1)
              omega
  · intro comment hfc hcls
    cases hfl : Like.findOneComment db uid tid with
    | none =>
      have hfl' : db.likes.find?
          (fun l => l.user = uid ∧ l.comment = some tid) = none := hfl
      have hnb : ∀ m ∈ db.likes, ¬ (m.user = uid ∧ m.video = (none : Option Nat)) :=
        fun m hm hp => findOneComment_none hfl m hm ⟨hp.1, hcls m hm hp.1 hp.2⟩
      cases k with
      | like =>
        simp only [reactComment]
        rw [likeComment_createOk hfc hfl hnb]
        constructor
        · simp only [reactionOnComment, Like.findOneComment]
          rw [findOneComment_after_append hfl rfl rfl, hfl']
          rfl
        · refine ⟨{ comment with likes := comment.likes + 1 }, ?_, ?_, ?_⟩
          · simp only [Comment.findById]
            exact findById_after_save_comment hfc rfl
          · simp only [reactionOnComment]
            rw [hfl]
            rfl
          · simp only [reactionOnComment]
            rw [hfl]
            show comment.dislikes = comment.dislikes + 0
            omega
      | dislike =>
        simp only [reactComment]
        rw [dislikeComment_createOk hfc hfl hnb]
        constructor
        · simp only [reactionOnComment, Like.findOneComment]
          rw [findOneComment_after_append hfl rfl rfl, hfl']
          rfl
        · refine ⟨{ comment with dislikes := comment.dislikes + 1 }, ?_, ?_, ?_⟩
          · simp only [Comment.findById]
            exact findById_after_save_comment hfc rfl
          · simp only [reactionOnComment]
            rw [hfl]
            show comment.likes = comment.likes + 0
            omega
          · simp only [reactionOnComment]
            rw [hfl]
            rfl
    | some ex =>
      have hfl' : db.likes.find?
          (fun l => l.user = uid ∧ l.comment = some tid) = some ex := hfl
      cases hext : ex.type with
      | like =>
        cases k with
        | like =>
          simp only [reactComment]
          rw [likeComment_toggle hfc hfl hext]
          constructor
          · simp only [reactionOnComment, Like.findOneComment]
            rw [findOneComment_after_remove hwf hfl, hfl']
            simp only [Option.map_some', Option.map_none', hext, specMachine]
          · refine ⟨{ comment with likes := comment.likes - 1 }, ?_, ?_, ?_⟩
            · simp only [Comment.findById]
              exact findById_after_save_comment hfc rfl
            · simp only [reactionOnComment]
              rw [hfl]
              simp only [Option.map_some', hext, specMachine]
              show comment.likes - 1 = comment.likes + (-1)
              omega
            · simp only [reactionOnComment]
              rw [hfl]
              simp only [Option.map_some', hext, specMachine]
              show comment.dislikes = comment.dislikes + 0
              omega
        | dislike =>
          simp only [reactComment]
          rw [dislikeComment_flip hfc hfl hext]
          constructor
          · simp only [reactionOnComment, Like.findOneComment]
            rw [findOneComment_after_update hwf hfl, hfl']
            simp only [Option.map_some', hext, specMachine]
          · refine ⟨{ comment with likes := comment.likes - 1, dislikes := comment.dislikes + 1 }, ?_, ?_, ?_⟩
            · simp only [Comment.findById]
              exact findById_after_save_comment hfc rfl
            · simp only [reactionOnComment]
              rw [hfl]
              simp only [Option.map_some', hext, specMachine]
              show comment.likes - 1 = comment.likes + (-1)
              omega
            · simp only [reactionOnComment]
              rw [hfl]
              simp only [Option.map_some', hext, specMachine]
      | dislike =>
        cases k with
        | like =>
          simp only [reactComment]
          rw [likeComment_flip hfc hfl hext]
          constructor
          · simp only [reactionOnComment, Like.findOneComment]
            rw [findOneComment_after_update hwf hfl, hfl']
            simp only [Option.map_some', hext, specMachine]
          · refine ⟨{ comment with likes := comment.likes + 1, dislikes := comment.dislikes - 1 }, ?_, ?_, ?_⟩
            · simp only [Comment.findById]
              exact findById_after_save_comment hfc rfl
            · simp only [reactionOnComment]
              rw [hfl]
              simp only [Option.map_some', hext, specMachine]
            · simp only [reactionOnComment]
              rw [hfl]
              simp only [Option.map_some', hext, specMachine]
              show comment.dislikes - 1 = comment.dislikes + (-1)
              omega
        | dislike =>
          simp only [reactComment]
          rw [dislikeComment_toggle hfc hfl hext]
          constructor
          · simp only [reactionOnComment, Like.findOneComment]
            rw [findOneComment_after_remove hwf hfl, hfl']
            simp only [Option.map_some', Option.map_none', hext, specMachine]
          · refine ⟨{ comment with dislikes := comment.dislikes - 1 }, ?_, ?_, ?_⟩
            · simp only [Comment.findById]
              exact findById_after_save_comment hfc rfl
            · simp only [reactionOnComment]
              rw [hfl]
              simp only [Option.map_some', hext, specMachine]
              show comment.likes = comment.likes + 0
              omega
            · simp only [reactionOnComment]
              rw [hfl]
              simp only [Option.map_some', hext, specMachine]
              show comment.dislikes - 1 = comment.dislikes + (-1)
              omega

/-- Counterexample to the unconditional six-row reading of C1: in a
well-formed state where user 11 already likes video 0, user 11's first like
on video 1 finds no existing reaction on video 1, yet the insert collides
with the (user 11, null) key the video-0 row occupies in the sparse
(user, comment) unique index, so the handler answers 500 and the state is
unchanged — not the create transition the machine prescribes. -/
theorem c1_second_video_like_counterexample :
    WF ⟨[⟨0, 10, 1, 0⟩, ⟨1, 10, 0, 0⟩], [], [⟨2, 11, some 0, none, .like⟩], 3⟩ ∧
    reactionOnVideo ⟨[⟨0, 10, 1, 0⟩, ⟨1, 10, 0, 0⟩], [],
        [⟨2, 11, some 0, none, .like⟩], 3⟩ 11 1 = none ∧
    likeVideo 11 1
        ⟨[⟨0, 10, 1, 0⟩, ⟨1, 10, 0, 0⟩], [], [⟨2, 11, some 0, none, .like⟩], 3⟩
      = (.serverError,
         ⟨[⟨0, 10, 1, 0⟩, ⟨1, 10, 0, 0⟩], [], [⟨2, 11, some 0, none, .like⟩], 3⟩) := by
  refine ⟨?_, rfl, rfl⟩
  constructor <;> decide

theorem likeVideo_create_obs {db : DB} {uid vid : Nat} {video : Video}
    (hfv : Video.findById db vid = some video)
    (hfl : Like.findOneVideo db uid vid = none)
    (hnb : ∀ m ∈ db.likes, ¬ (m.user = uid ∧ m.comment = (none : Option Nat))) :
    Video.findById (likeVideo uid vid db).2 vid
        = some { video with likes := video.likes + 1 } ∧
    Like.findOneVideo (likeVideo uid vid db).2 uid vid
        = some ⟨db.nextId, uid, some vid, none, .like⟩ := by
  rw [likeVideo_createOk hfv hfl hnb]
  exact ⟨findById_after_save_video hfv rfl, findOneVideo_after_append hfl rfl rfl⟩

theorem likeVideo_toggle_obs {db : DB} {uid vid : Nat} {video : Video} {ex : Like}
    (hwf : WF db)
    (hfv : Video.findById db vid = some video)
    (hfl : Like.findOneVideo db uid vid = some ex)
    (ht : ex.type = .like) :
    Video.findById (likeVideo uid vid db).2 vid
        = some { video with likes := video.likes - 1 } ∧
    Like.findOneVideo (likeVideo uid vid db).2 uid vid = none := by
  rw [likeVideo_toggle hfv hfl ht]
  exact ⟨findById_after_save_video hfv rfl, findOneVideo_after_remove hwf hfl⟩

theorem dislikeVideo_create_obs {db : DB} {uid vid : Nat} {video : Video}
    (hfv : Video.findById db vid = some video)
    (hfl : Like.findOneVideo db uid vid = none)
    (hnb : ∀ m ∈ db.likes, ¬ (m.user = uid ∧ m.comment = (none : Option Nat))) :
    Video.findById (dislikeVideo uid vid db).2 vid
        = some { video with dislikes := video.dislikes + 1 } ∧
    Like.findOneVideo (dislikeVideo uid vid db).2 uid vid
        = some ⟨db.nextId, uid, some vid, none, .dislike⟩ := by
  rw [dislikeVideo_createOk hfv hfl hnb]
  exact ⟨findById_after_save_video hfv rfl, findOneVideo_after_append hfl rfl rfl⟩

theorem dislikeVideo_toggle_obs {db : DB} {uid vid : Nat} {video : Video} {ex : Like}
    (hwf : WF db)
    (hfv : Video.findById db vid = some video)
    (hfl : Like.findOneVideo db uid vid = some ex)
    (ht : ex.type = .dislike) :
    Video.findById (dislikeVideo uid vid db).2 vid
        = some { video with dislikes := video.dislikes - 1 } ∧
    Like.findOneVideo (dislikeVideo uid vid db).2 uid vid = none := by
  rw [dislikeVideo_toggle hfv hfl ht]
  exact ⟨findById_after_save_video hfv rfl, findOneVideo_after_remove hwf hfl⟩

theorem likeComment_create_obs {db : DB} {uid cid : Nat} {comment : Comment}
    (hfc : Comment.findById db cid = some comment)
    (hfl : Like.findOneComment db uid cid = none)
    (hnb : ∀ m ∈ db.likes, ¬ (m.user = uid ∧ m.video = (none : Option Nat))) :
    Comment.findById (likeComment uid cid db).2 cid
        = some { comment with likes := comment.likes + 1 } ∧
    Like.findOneComment (likeComment uid cid db).2 uid cid
        = some ⟨db.nextId, uid, none, some cid, .like⟩ := by
  rw [likeComment_createOk hfc hfl hnb]
  exact ⟨findById_after_save_comment hfc rfl, findOneComment_after_append hfl rfl rfl⟩

theorem likeComment_toggle_obs {db : DB} {uid cid : Nat} {comment : Comment} {ex : Like}
    (hwf : WF db)
    (hfc : Comment.findById db cid = some comment)
    (hfl : Like.findOneComment db uid cid = some ex)
    (ht : ex.type = .like) :
    Comment.findById (likeComment uid cid db).2 cid
        = some { comment with likes := comment.likes - 1 } ∧
    Like.findOneComment (likeComment uid cid db).2 uid cid = none := by
  rw [likeComment_toggle hfc hfl ht]
  exact ⟨findById_after_save_comment hfc rfl, findOneComment_after_remove hwf hfl⟩

theorem dislikeComment_create_obs {db : DB} {uid cid : Nat} {comment : Comment}
    (hfc : Comment.findById db cid = some comment)
    (hfl : Like.findOneComment db uid cid = none)
    (hnb : ∀ m ∈ db.likes, ¬ (m.user = uid ∧ m.video = (none : Option Nat))) :
    Comment.findById (dislikeComment uid cid db).2 cid
        = some { comment with dislikes := comment.dislikes + 1 } ∧
    Like.findOneComment (dislikeComment uid cid db).2 uid cid
        = some ⟨db.nextId, uid, none, some cid, .dislike⟩ := by
  rw [dislikeComment_createOk hfc hfl hnb]
  exact ⟨findById_after_save_comment hfc rfl, findOneComment_after_append hfl rfl rfl⟩

theorem dislikeComment_toggle_obs {db : DB} {uid cid : Nat} {comment : Comment} {ex : Like}
    (hwf : WF db)
    (hfc : Comment.findById db cid = some comment)
    (hfl : Like.findOneComment db uid cid = some ex)
    (ht : ex.type = .dislike) :
    Comment.findById (dislikeComment uid cid db).2 cid
        = some { comment with dislikes := comment.dislikes - 1 } ∧
    Like.findOneComment (dislikeComment uid cid db).2 uid cid = none := by
  rw [dislikeComment_toggle hfc hfl ht]
  exact ⟨findById_after_save_comment hfc rfl, findOneComment_after_remove hwf hfl⟩

/-- Reacting twice with the same kind on a video the actor holds no reaction
on ends with no reaction row and the video document fully restored. -/
def DoubleReactVideoReverts (uid vid : Nat) (k : LikeType) (db : DB) : Prop :=
  ∀ video, Video.findById db vid = some video →
    Like.findOneVideo db uid vid = none →
    Like.findOneVideo (reactVideo k uid vid (reactVideo k uid vid db).2).2 uid vid = none ∧
    Video.findById (reactVideo k uid vid (reactVideo k uid vid db).2).2 vid = some video

/-- The comment-target version of the double-react revert property. -/
def DoubleReactCommentReverts (uid cid : Nat) (k : LikeType) (db : DB) : Prop :=
  ∀ comment, Comment.findById db cid = some comment →
    Like.findOneComment db uid cid = none →
    Like.findOneComment
        (reactComment k uid cid (reactComment k uid cid db).2).2 uid cid = none ∧
    Comment.findById (reactComment k uid cid (reactComment k uid cid db).2).2 cid
      = some comment

/-- C4: for every actor and every target with no existing reaction from that
actor, reacting twice with the same requested kind returns the reaction
state to `none` and both counters (indeed the whole stored document) to
their starting values. -/
theorem c4_double_toggle_reverts (db : DB) (uid tid : Nat) (k : LikeType) (hwf : WF db) :
    DoubleReactVideoReverts uid tid k db ∧ DoubleReactCommentReverts uid tid k db := by
  constructor
  · intro video hfv hfl
    cases k with
    | like =>
      simp only [reactVideo]
      cases hb : db.likes.any (fun m => m.user = uid ∧ m.comment = (none : Option Nat)) with
      | true =>
        have h2 : (likeVideo uid tid db).2 = db := by
          rw [likeVideo_createConflict hfv hfl hb]
        rw [h2, h2]
        exact ⟨hfl, hfv⟩
      | false =>
        obtain ⟨hfv1, hfl1⟩ := likeVideo_create_obs hfv hfl
          (fun m hm hp => forall_not_of_any_eq_false hb m hm (decide_eq_true hp))
        have hwf1 : WF (likeVideo uid tid db).2 := wf_likeVideo hwf uid tid
        obtain ⟨hfv2, hfl2⟩ := likeVideo_toggle_obs hwf1 hfv1 hfl1 rfl
        refine ⟨hfl2, ?_⟩
        rw [hfv2]
        cases video with
        | mk a b c d => simp
    | dislike =>
      simp only [reactVideo]
      cases hb : db.likes.any (fun m => m.user = uid ∧ m.comment = (none : Option Nat)) with
      | true =>
        have h2 : (dislikeVideo uid tid db).2 = db := by
          rw [dislikeVideo_createConflict hfv hfl hb]
        rw [h2, h2]
        exact ⟨hfl, hfv⟩
      | false =>
        obtain ⟨hfv1, hfl1⟩ := dislikeVideo_create_obs hfv hfl
          (fun m hm hp => forall_not_of_any_eq_false hb m hm (decide_eq_true hp))
        have hwf1 : WF (dislikeVideo uid tid db).2 := wf_dislikeVideo hwf uid tid
        obtain ⟨hfv2, hfl2⟩ := dislikeVideo_toggle_obs hwf1 hfv1 hfl1 rfl
        refine ⟨hfl2, ?_⟩
        rw [hfv2]
        cases video with
        | mk a b c d => simp
  · intro comment hfc hfl
    cases k with
    | like =>
      simp only [reactComment]
      cases hb : db.likes.any (fun m => m.user = uid ∧ m.video = (none : Option Nat)) with
      | true =>
        have h2 : (likeComment uid tid db).2 = db := by
          rw [likeComment_createConflict hfc hfl hb]
        rw [h2, h2]
        exact ⟨hfl, hfc⟩
      | false =>
        obtain ⟨hfc1, hfl1⟩ := likeComment_create_obs hfc hfl
          (fun m hm hp => forall_not_of_any_eq_false hb m hm (decide_eq_true hp))
        have hwf1 : WF (likeComment uid tid db).2 := wf_likeComment hwf uid tid
        obtain ⟨hfc2, hfl2⟩ := likeComment_toggle_obs hwf1 hfc1 hfl1 rfl
        refine ⟨hfl2, ?_⟩
        rw [hfc2]
        cases comment with
        | mk a b c d e f g h => simp
    | dislike =>
      simp only [reactComment]
      cases hb : db.likes.any (fun m => m.user = uid ∧ m.video = (none : Option Nat)) with
      | true =>
        have h2 : (dislikeComment uid tid db).2 = db := by
          rw [dislikeComment_createConflict hfc hfl hb]
        rw [h2, h2]
        exact ⟨hfl, hfc⟩
      | false =>
        obtain ⟨hfc1, hfl1⟩ := dislikeComment_create_obs hfc hfl
          (fun m hm hp => forall_not_of_any_eq_false hb m hm (decide_eq_true hp))
        have hwf1 : WF (dislikeComment uid tid db).2 := wf_dislikeComment hwf uid tid
        obtain ⟨hfc2, hfl2⟩ := dislikeComment_toggle_obs hwf1 hfc1 hfl1 rfl
        refine ⟨hfl2, ?_⟩
        rw [hfc2]
        cases comment with
        | mk a b c d e f g h => simp

/-- C2: the denormalized `likes`/`dislikes` counters of every stored target
always equal the count of Like rows of each kind pointing at it, after any
sequence of operations from a well-formed state. -/
theorem c2_counter_consistency (db : DB) (ops : List Op) (hwf : WF db) :
    CounterConsistent (run ops db) :=
  (wf_run hwf ops).counts

/-- C3: at every observation point reachable by a sequence of operations, at
most one Like row exists per (actor, target) pair. -/
theorem c3_unique_reaction (db : DB) (ops : List Op) (hwf : WF db) :
    UniqueReactions (run ops db) :=
  (wf_run hwf ops).uniq

/-- C9: every Like row in every reachable state references exactly one
target — a video or a comment, never both and never neither — even though
the schema declares both reference fields optional. -/
theorem c9_one_target (db : DB) (ops : List Op) (hwf : WF db) :
    OneTarget (run ops db) :=
  (wf_run hwf ops).one

/-- C8: the like-status read returns `{liked, disliked}` with `liked` true
iff the actor holds a like on the video and `disliked` true iff they hold a
dislike; the booleans are never both true, and both are false exactly when
the actor holds no reaction. -/
def LikeStatusCorrect (uid vid : Nat) (db : DB) : Prop :=
  ∃ liked disliked : Bool,
    likeStatus uid vid db = .status liked disliked ∧
    (liked = true ↔ ∃ l ∈ db.likes, l.user = uid ∧ l.video = some vid ∧ l.type = .like) ∧
    (disliked = true ↔
      ∃ l ∈ db.likes, l.user = uid ∧ l.video = some vid ∧ l.type = .dislike) ∧
    ¬ (liked = true ∧ disliked = true) ∧
    ((liked = false ∧ disliked = false) ↔ reactionOnVideo db uid vid = none)

/-- C8: `GET /videos/:id/like-status` reports the actor's reaction exactly. -/
theorem c8_like_status_correct (db : DB) (uid vid : Nat) (hwf : WF db) :
    LikeStatusCorrect uid vid db := by
  cases hfl : Like.findOneVideo db uid vid with
  | none =>
    refine ⟨false, false, ?_, ?_, ?_, ?_, ?_⟩
    · simp only [likeStatus, hfl]
    · constructor
      · intro h
        exact Bool.noConfusion h
      · rintro ⟨l, hl, h1, h2, -⟩
        exact absurd ⟨h1, h2⟩ (findOneVideo_none hfl l hl)
    · constructor
      · intro h
        exact Bool.noConfusion h
      · rintro ⟨l, hl, h1, h2, -⟩
        exact absurd ⟨h1, h2⟩ (findOneVideo_none hfl l hl)
    · rintro ⟨h, -⟩
      exact Bool.noConfusion h
    · constructor
      · intro _
        simp only [reactionOnVideo, hfl, Option.map_none']
      · intro _
        exact ⟨rfl, rfl⟩
  | some l =>
    obtain ⟨hlm, hlu, hlv⟩ := findOneVideo_facts hfl
    cases hlt : l.type with
    | like =>
      refine ⟨true, false, ?_, ?_, ?_, ?_, ?_⟩
      · simp only [likeStatus, hfl, hlt]
        rfl
      · exact ⟨fun _ => ⟨l, hlm, hlu, hlv, hlt⟩, fun _ => rfl⟩
      · constructor
        · intro h
          exact Bool.noConfusion h
        · rintro ⟨m, hm, hmu, hmv, hmt⟩
          have hml : m = l := hwf.uniq m hm l hlm (hmu.trans hlu.symm)
            (Or.inl ⟨hmv.trans hlv.symm, by rw [hmv]; rfl⟩)
          rw [hml, hlt] at hmt
          exact LikeType.noConfusion hmt
      · rintro ⟨-, h⟩
        exact Bool.noConfusion h
      · constructor
        · rintro ⟨h, -⟩
          exact Bool.noConfusion h
        · intro h
          rw [reactionOnVideo, hfl] at h
          exact Option.noConfusion h
    | dislike =>
      refine ⟨false, true, ?_, ?_, ?_, ?_, ?_⟩
      · simp only [likeStatus, hfl, hlt]
        rfl
      · constructor
        · intro h
          exact Bool.noConfusion h
        · rintro ⟨m, hm, hmu, hmv, hmt⟩
          have hml : m = l := hwf.uniq m hm l hlm (hmu.trans hlu.symm)
            (Or.inl ⟨hmv.trans hlv.symm, by rw [hmv]; rfl⟩)
          rw [hml, hlt] at hmt
          exact LikeType.noConfusion hmt
      · exact ⟨fun _ => ⟨l, hlm, hlu, hlv, hlt⟩, fun _ => rfl⟩
      · rintro ⟨h, -⟩
        exact Bool.noConfusion h
      · constructor
        · rintro ⟨-, h⟩
          exact Bool.noConfusion h
        · intro h
          rw [reactionOnVideo, hfl] at h
          exact Option.noConfusion h

/-- C10: for a video id that resolves to no stored video, the like-status
read does not 404: the handler never checks video existence and answers
`{liked: false, disliked: false}`. -/
theorem c10_like_status_missing_video (db : DB) (uid vid : Nat) (hwf : WF db)
    (hfv : Video.findById db vid = none) :
    likeStatus uid vid db = .status false false := by
  have hnone : Like.findOneVideo db uid vid = none := by
    show db.likes.find? (fun l => l.user = uid ∧ l.video = some vid) = none
    rw [List.find?_eq_none]
    intro l hl hp
    rw [decide_eq_true_eq] at hp
    have h0 := hwf.refs l hl
    rw [hp.2] at h0
    have hx : vid ∈ db.videos.map Video.id := h0
    obtain ⟨v, hv, hvid⟩ := List.mem_map.mp hx
    exact findById_video_none hfv v hv hvid
  simp only [likeStatus, hnone]

/-- C5 (amended): a successful target deletion removes every Like row
pointing directly at that target. -/
def CascadeRemovesTargetReactions (uid vid cid : Nat) (db : DB) : Prop :=
  ((deleteVideo uid vid db).1 = .ok "Video removed" →
    ∀ l ∈ (deleteVideo uid vid db).2.likes, ¬ l.video = some vid) ∧
  ((deleteComment uid cid db).1 = .ok "Comment removed" →
    ∀ l ∈ (deleteComment uid cid db).2.likes, ¬ l.comment = some cid)

/-- C5 counterexample: deleting a video cascade-deletes its comments but
NOT the Like rows pointing at those comments.  Video 0 (owner 10) has one
comment (id 1) which user 11 liked (row id 2); after `DELETE /videos/0` the
comment is gone but its Like row is still stored and queryable. -/
theorem c5_cascade_orphans_counterexample :
    (deleteVideo 10 0 ⟨[⟨0, 10, 0, 0⟩], [⟨1, 10, 0, 1, 0, [], false, none⟩],
        [⟨2, 11, none, some 1, .like⟩], 3⟩).1 = .ok "Video removed" ∧
    (deleteVideo 10 0 ⟨[⟨0, 10, 0, 0⟩], [⟨1, 10, 0, 1, 0, [], false, none⟩],
        [⟨2, 11, none, some 1, .like⟩], 3⟩).2.comments = [] ∧
    (deleteVideo 10 0 ⟨[⟨0, 10, 0, 0⟩], [⟨1, 10, 0, 1, 0, [], false, none⟩],
        [⟨2, 11, none, some 1, .like⟩], 3⟩).2.likes
      = [⟨2, 11, none, some 1, .like⟩] :=
  ⟨rfl, rfl, rfl⟩

/-- C5 (amended), proved: deletion removes all Reaction rows of the deleted
target itself; the counterexample above shows rows of cascade-deleted
children are kept. -/
theorem c5_cascade_amended (db : DB) (uid vid cid : Nat) :
    CascadeRemovesTargetReactions uid vid cid db := by
  constructor
  · intro hok l hl
    cases hfv : Video.findById db vid with
    | none =>
      rw [deleteVideo_notFound hfv] at hok
      exact Resp.noConfusion hok
    | some video =>
      by_cases hu : video.user = uid
      · rw [deleteVideo_ok hfv hu] at hl
        have hl' : l ∈ db.likes.filter (fun l => ¬ l.video = some vid) := hl
        have h2 := (List.mem_filter.mp hl').2
        rwa [decide_eq_true_eq] at h2
      · rw [deleteVideo_unauthorized hfv hu] at hok
        exact Resp.noConfusion hok
  · intro hok l hl
    cases hfc : Comment.findById db cid with
    | none =>
      rw [deleteComment_notFound hfc] at hok
      exact Resp.noConfusion hok
    | some comment =>
      by_cases hu : comment.user = uid
      · cases hr : comment.isReply with
        | false =>
          rw [deleteComment_ok_parent hfc hu hr] at hl
          have hl' : l ∈ db.likes.filter (fun l => ¬ l.comment = some cid) := hl
          have h2 := (List.mem_filter.mp hl').2
          rwa [decide_eq_true_eq] at h2
        | true =>
          rw [deleteComment_ok_reply hfc hu hr] at hl
          have hl' : l ∈ db.likes.filter (fun l => ¬ l.comment = some cid) := hl
          have h2 := (List.mem_filter.mp hl').2
          rwa [decide_eq_true_eq] at h2
      · rw [deleteComment_unauthorized hfc hu] at hok
        exact Resp.noConfusion hok

/-- C6: when the `findOne` read sees no reaction but another request for the
same (actor, video) commits its row before this handler's `save`, the
unique index rejects the insert and the handler's catch block answers a
500 Server error — there is no re-read and no retry.  Read snapshot: video 0
with zero counters and no Like rows; write-time store: the concurrent
winner's row `(user 11, video 0, like)` already inserted and the counter
already bumped. -/
theorem c6_conflict_surfaces_500 :
    likeVideoAt 11 0 ⟨[⟨0, 10, 0, 0⟩], [], [], 1⟩
        ⟨[⟨0, 10, 1, 0⟩], [], [⟨1, 11, some 0, none, .like⟩], 2⟩
      = (.serverError, ⟨[⟨0, 10, 1, 0⟩], [], [⟨1, 11, some 0, none, .like⟩], 2⟩) :=
  rfl

/-- C7 counterexample: the decrements are raw JavaScript arithmetic with no
underflow guard.  On a store whose counter is already inconsistent (video
likes = 0 while a like row exists), the toggle-off branch stores likes = −1
and reports success — no internal-consistency error is signalled. -/
theorem c7_underflow_counterexample :
    (likeVideo 11 0 ⟨[⟨0, 10, 0, 0⟩], [], [⟨1, 11, some 0, none, .like⟩], 2⟩).1
        = .ok "Like removed" ∧
    (likeVideo 11 0 ⟨[⟨0, 10, 0, 0⟩], [], [⟨1, 11, some 0, none, .like⟩], 2⟩).2.videos
        = [⟨0, 10, -1, 0⟩] :=
  ⟨rfl, rfl⟩

/-- C7 (amended): starting from a well-formed (counter-consistent) state, no
sequence of operations ever stores a negative counter, because every
decrement is guarded by the existence of a reaction row of the matching
kind. -/
theorem c7_nonneg_amended (db : DB) (ops : List Op) (hwf : WF db) :
    NonNegCounters (run ops db) := by
  obtain ⟨hv, hc⟩ := (wf_run hwf ops).counts
  constructor
  · intro v hvm
    obtain ⟨h1, h2⟩ := hv v hvm
    rw [h1, h2]
    exact ⟨Int.natCast_nonneg _, Int.natCast_nonneg _⟩
  · intro c hcm
    obtain ⟨h1, h2⟩ := hc c hcm
    rw [h1, h2]
    exact ⟨Int.natCast_nonneg _, Int.natCast_nonneg _⟩

end Claims

section Witnesses

theorem c1_react_state_machine_witness :
    VideoSiteMatchesSpec 11 0 .like ⟨[⟨0, 10, 0, 0⟩], [], [], 1⟩ ∧
    CommentSiteMatchesSpec 11 0 .like ⟨[⟨0, 10, 0, 0⟩], [], [], 1⟩ :=
  c1_react_state_machine ⟨[⟨0, 10, 0, 0⟩], [], [], 1⟩ 11 0 .like
    (by constructor <;> decide)

theorem c2_counter_consistency_witness :
    CounterConsistent (run [.uploadVid 10, .addCom 10 0, .likeVid 11 0, .dislikeVid 11 0,
        .likeCom 12 1, .likeCom 12 1, .addRep 12 1, .likeCom 13 2, .deleteCom 10 1,
        .deleteVid 10 0] ⟨[], [], [], 0⟩) :=
  c2_counter_consistency ⟨[], [], [], 0⟩ _ (by constructor <;> decide)

theorem c3_unique_reaction_witness :
    UniqueReactions (run [.uploadVid 10, .likeVid 11 0, .likeVid 12 0, .dislikeVid 11 0]
        ⟨[], [], [], 0⟩) :=
  c3_unique_reaction ⟨[], [], [], 0⟩ _ (by constructor <;> decide)

theorem c4_double_toggle_reverts_witness :
    DoubleReactVideoReverts 11 0 .like ⟨[⟨0, 10, 0, 0⟩], [], [], 1⟩ ∧
    DoubleReactCommentReverts 11 0 .like ⟨[⟨0, 10, 0, 0⟩], [], [], 1⟩ :=
  c4_double_toggle_reverts ⟨[⟨0, 10, 0, 0⟩], [], [], 1⟩ 11 0 .like
    (by constructor <;> decide)

theorem c5_cascade_amended_witness :
    CascadeRemovesTargetReactions 10 0 1 ⟨[⟨0, 10, 0, 0⟩],
      [⟨1, 10, 0, 1, 0, [], false, none⟩], [⟨2, 11, none, some 1, .like⟩], 3⟩ :=
  c5_cascade_amended ⟨[⟨0, 10, 0, 0⟩], [⟨1, 10, 0, 1, 0, [], false, none⟩],
    [⟨2, 11, none, some 1, .like⟩], 3⟩ 10 0 1

theorem c7_nonneg_amended_witness :
    NonNegCounters (run [.uploadVid 10, .likeVid 11 0, .likeVid 11 0, .dislikeVid 12 0]
        ⟨[], [], [], 0⟩) :=
  c7_nonneg_amended ⟨[], [], [], 0⟩ _ (by constructor <;> decide)

theorem c8_like_status_correct_witness :
    LikeStatusCorrect 11 0 ⟨[⟨0, 10, 1, 0⟩], [], [⟨1, 11, some 0, none, .like⟩], 2⟩ :=
  c8_like_status_correct ⟨[⟨0, 10, 1, 0⟩], [], [⟨1, 11, some 0, none, .like⟩], 2⟩ 11 0
    (by constructor <;> decide)

theorem c10_like_status_missing_video_witness :
    likeStatus 11 5 ⟨[⟨0, 10, 0, 0⟩], [], [], 1⟩ = .status false false :=
  c10_like_status_missing_video ⟨[⟨0, 10, 0, 0⟩], [], [], 1⟩ 11 5
    (by constructor <;> decide) (by decide)

theorem c9_one_target_witness :
    OneTarget (run [.uploadVid 10, .addCom 10 0, .likeVid 11 0, .likeCom 11 1]
        ⟨[], [], [], 0⟩) :=
  c9_one_target ⟨[], [], [], 0⟩ _ (by constructor <;> decide)

end Witnesses

end Tube
